import Mathlib

/-!
# statsd-router: a shallow embedding of the dataplane and of the routing map

The development follows `src/statsdrouter/router.go` (parseMetric, packetHandler,
metricHandler), `src/statsdrouter/routing-map.go` (UpdateRoutingMap,
backendInSlice) and `src/statsdrouter/backend.go` (OpenManagementConnection,
CheckAliveStatus).

Conventions of the embedding

* A Go `string` / `[]byte` is a list of bytes (`GoString`).  A `[]byte` that may be
  `nil` is an `Option GoString`.
* A Go pointer that may be `nil` is an `Option`.
* A runtime failure (index out of range, nil dereference, the failure raised by
  `regexp.MustCompile`) is an explicit outcome of the function, never a stuck term.
* A Go `map` is an association list; the order of the list is the order in which a
  `range` loop happens to visit the entries.  Statements quantify over every list,
  hence over every visiting order.
* The regular expression library and the network are parameters (`Env`, and
  `ProbeNet` for the management connection).
* Channel sends are recorded as a list of `Send` events; the capacity of the
  channels and the scheduling of the goroutines are not modelled.
-/

namespace statsdrouter

/-! ## Strings -/

/-- A Go string: a sequence of bytes. -/
abbrev GoString := List UInt8

/-- The bytes (UTF-8) of a string literal of the source. -/
def bytesOf (s : String) : GoString := s.toList.flatMap String.utf8EncodeChar

/-- The byte `:`. -/
abbrev colon : UInt8 := 58
/-- The byte `|`. -/
abbrev bar : UInt8 := 124
/-- The byte `@`. -/
abbrev atSign : UInt8 := 64
/-- The byte `\n`. -/
abbrev newline : UInt8 := 10

namespace strings

/-- Go `strings.Split(s, sep)` for a separator of one byte (every call site of the
router passes `":"`, `"|"`, `"@"` or `"\n"`): the segments of `s` between the
occurrences of `sep`; the result always has at least one element. -/
def Split (s : GoString) (sep : UInt8) : List GoString :=
  match s with
  | [] => [[]]
  | c :: cs =>
    if c = sep then [] :: Split cs sep
    else
      match Split cs sep with
      | [] => [[c]]
      | seg :: segs => (c :: seg) :: segs

end strings

/-- The leading part of `s` up to (not including) the first `sep`: the first element
of `strings.Split s sep`. -/
def firstSeg : GoString → UInt8 → GoString
  | [], _ => []
  | c :: cs, sep => if c = sep then [] else c :: firstSeg cs sep

namespace strconv

/-- The two kinds of `*strconv.NumError`. -/
inductive NumError where
  | ErrSyntax
  | ErrRange
deriving DecidableEq, Repr

/-- Largest `uint64`. -/
def maxUint64 : Nat := 2 ^ 64 - 1

/-- Value of one byte as a digit, as in the loop of `ParseUint`: decimal digits give
`0..9`, ASCII letters (lower-cased by `c | 0x20`) give `10..35`, anything else is a
syntax error (`none`). -/
def digitVal (c : UInt8) : Option Nat :=
  let n := c.toNat
  if 48 ≤ n ∧ n ≤ 57 then some (n - 48)
  else if 97 ≤ (n ||| 32) ∧ (n ||| 32) ≤ 122 then some ((n ||| 32) - 97 + 10)
  else none

/-- The digit loop of `strconv.ParseUint(s, 10, 64)`, `n` being the value so far. -/
def parseUintLoop : GoString → Nat → Nat × Option NumError
  | [], n => (n, none)
  | c :: cs, n =>
    match digitVal c with
    | none => (0, some NumError.ErrSyntax)
    | some d =>
      if 10 ≤ d then (0, some NumError.ErrSyntax)
      else if maxUint64 / 10 + 1 ≤ n then (maxUint64, some NumError.ErrRange)
      else if maxUint64 < n * 10 + d then (maxUint64, some NumError.ErrRange)
      else parseUintLoop cs (n * 10 + d)

/-- Go `strconv.ParseUint(s, 10, 64)`: the value and the error (`none` is `nil`). -/
def ParseUint (s : GoString) : Nat × Option NumError :=
  if s = [] then (0, some NumError.ErrSyntax) else parseUintLoop s 0

/-- Go `strconv.ParseInt(s, 10, 0)` on a platform whose `int` has 64 bits: the value
and the error (`none` is `nil`). -/
def ParseInt (s : GoString) : Int × Option NumError :=
  match s with
  | [] => (0, some NumError.ErrSyntax)
  | c :: rest =>
    let neg : Bool := c = 45
    let s1 : GoString := if c = 43 ∨ c = 45 then rest else s
    match ParseUint s1 with
    | (_, some NumError.ErrSyntax) => (0, some NumError.ErrSyntax)
    | (un, _) =>
      if neg = false ∧ 2 ^ 63 ≤ un then ((2 : Int) ^ 63 - 1, some NumError.ErrRange)
      else if neg = true ∧ 2 ^ 63 < un then (-(2 : Int) ^ 63, some NumError.ErrRange)
      else (if neg then -(un : Int) else (un : Int), none)

end strconv

/-! ## Outcomes -/

/-- Outcome of running a function that may fail at run time. -/
inductive Run (α : Type) where
  /-- The function returned `a`. -/
  | returned (a : α)
  /-- The function raised a runtime failure and did not return. -/
  | crashed
deriving DecidableEq, Repr

/-! ## router.go: metric records -/

/-- `StatsDMetric` of router.go.  `new(StatsDMetric)` is the default value: empty
name, value `0`, `raw` nil.  `value` holds the `int64` of which the source stores
the `float64` conversion. -/
structure StatsDMetric where
  name : GoString := []
  value : Int := 0
  raw : Option GoString := none
deriving DecidableEq, Repr

/-- The metric types accepted by the `switch` of `parseMetric`: `"c"`, `"ms"`, `"g"`. -/
def acceptedTypes : List GoString := [[99], [109, 115], [103]]

/-- `parseMetric` of router.go (lines 156-181). -/
def parseMetric (data : GoString) : Run StatsDMetric :=
  let metric : StatsDMetric := {}
  let metricParts := strings.Split data colon
  if metricParts.length < 2 then
    Run.returned metric
  else
    match metricParts[0]?, metricParts[1]? with
    | some name, some part1 =>
      let valueParts := strings.Split part1 bar
      match valueParts[0]?, valueParts[1]? with
      | some v0, some v1 =>
        let value := (strconv.ParseInt v0).1
        let typeParts := strings.Split v1 atSign
        match typeParts[0]? with
        | some metricType =>
          if metricType ∈ acceptedTypes then
            Run.returned { name := name, value := value, raw := some data }
          else
            Run.returned metric
        | none => Run.crashed
      | _, _ => Run.crashed
    | _, _ => Run.crashed

/-- The loop of `packetHandler` over the lines of one packet: the records put on the
metric queue, in order, and whether a `parseMetric` call failed at run time (the
records queued before the failure stay queued). -/
def packetLoop : List GoString → List StatsDMetric × Bool
  | [] => ([], false)
  | line :: rest =>
    match parseMetric line with
    | Run.crashed => ([], true)
    | Run.returned metric =>
      let r := packetLoop rest
      (metric :: r.1, r.2)

/-- The `case packet := <-packetsChannel` arm of `packetHandler` (router.go lines
137-145) for one packet. -/
def packetHandler (packet : GoString) : List StatsDMetric × Bool :=
  packetLoop (strings.Split packet newline)

/-! ## The environment: regular expressions and the network -/

/-- The parts of the world the router calls into: the `regexp` library and the
network side of `NewStatsDBackend`. -/
structure Env where
  /-- Whether `regexp.Compile(expr)` accepts the expression. -/
  compiles : GoString → Bool
  /-- The result of `MatchString(s)` on the compiled form of `expr`. -/
  matchString : GoString → GoString → Bool
  /-- The outcome of `NewStatsDBackend(host, port, managementPort, _)`: `some addr`
  when `Open` and `OpenManagementConnection` succeed, `addr` being the address of
  the new object; `none` when one of them returns an error. -/
  dial : GoString → Nat → Nat → Option Nat

/-- A compiled `*regexp.Regexp`, represented by the expression it was compiled from. -/
structure Regexp where
  expr : GoString
deriving DecidableEq, Repr

/-- Go `regexp.MustCompile`: the compiled expression, or a runtime failure (`none`)
when the expression does not compile. -/
def Regexp.MustCompile (env : Env) (expr : GoString) : Option Regexp :=
  if env.compiles expr then some { expr := expr } else none

/-- Go `(*Regexp).MatchString`. -/
def Regexp.MatchString (env : Env) (re : Regexp) (s : GoString) : Bool :=
  env.matchString re.expr s

/-! ## config.go and backend.go: nodes and backends -/

/-- `StatsdNode` of config.go: the identity triple of the desired configuration.
The ports are `uint16` in the source. -/
structure StatsdNode where
  Host : GoString
  Port : Nat
  ManagementPort : Nat
deriving DecidableEq, Repr

/-- `RouterConfig` of config.go: `Rules`, in the order in which `range` visits it. -/
structure RouterConfig where
  Rules : List (GoString × List StatsdNode)
deriving DecidableEq, Repr

/-- The target of a `*StatsDBackend`: the three fields that are fixed at
construction, and the address of the object.  The mutable fields are kept outside:
`Status.Alive` is read through a liveness assignment, and what is sent on
`SendChannel` is recorded as `Send` events. -/
structure StatsDBackend where
  Host : GoString
  Port : Nat
  ManagementPort : Nat
  addr : Nat
deriving DecidableEq, Repr

/-- The identity triple of a backend. -/
def StatsDBackend.node (b : StatsDBackend) : StatsdNode :=
  { Host := b.Host, Port := b.Port, ManagementPort := b.ManagementPort }

/-- `NewStatsDBackend` of backend.go (lines 39-56): the new backend, or `none` for
`(nil, err)`. -/
def NewStatsDBackend (env : Env) (host : GoString) (port managementPort : Nat)
    (_checkInterval : Int) : Option StatsDBackend :=
  match env.dial host port managementPort with
  | some a => some { Host := host, Port := port, ManagementPort := managementPort, addr := a }
  | none => none

/-! ## routing-map.go -/

/-- `RoutingRule` of routing-map.go.  `Backends` is a slice of pointers, each of
which may be nil. -/
structure RoutingRule where
  Regexp : Regexp
  Backends : List (Option StatsDBackend) := []
deriving DecidableEq, Repr

/-- `RoutingMap` of routing-map.go.  A registry entry may hold a nil pointer. -/
structure RoutingMap where
  Map : List (GoString × RoutingRule)
  backendList : List (GoString × Option StatsDBackend)
  checkInterval : Int
deriving DecidableEq, Repr

/-- `NewRoutingMap` of routing-map.go. -/
def NewRoutingMap (checkInterval : Int) : RoutingMap :=
  { Map := [], backendList := [], checkInterval := checkInterval }

/-- Map read `m[k]` with the `ok` flag: `none` when the key is absent. -/
def mapGet {β : Type} (k : GoString) : List (GoString × β) → Option β
  | [] => none
  | (k1, v) :: rest => if k1 = k then some v else mapGet k rest

/-- Map write `m[k] = v`: replaces the value of an existing key, adds the entry
otherwise. -/
def mapSet {β : Type} (k : GoString) (v : β) : List (GoString × β) → List (GoString × β)
  | [] => [(k, v)]
  | (k1, v1) :: rest => if k1 = k then (k1, v) :: rest else (k1, v1) :: mapSet k v rest

/-- Decimal digits of `n`, least significant first (`fuel` bounds the number of
digits). -/
def decimalDigits : Nat → Nat → List Nat
  | 0, _ => []
  | fuel + 1, n => if n < 10 then [n] else (n % 10) :: decimalDigits fuel (n / 10)

/-- The verb `%d` of `fmt.Sprintf` on an unsigned integer. -/
def formatUint (n : Nat) : GoString :=
  ((decimalDigits (n + 1) n).reverse).map (fun d => UInt8.ofNat (48 + d))

/-- The registry key `fmt.Sprintf("%s:%d:%d", node.Host, node.Port, node.ManagementPort)`
(routing-map.go line 44). -/
def backendKey (node : StatsdNode) : GoString :=
  node.Host ++ colon :: (formatUint node.Port ++ colon :: formatUint node.ManagementPort)

/-- `backendInSlice` of routing-map.go (lines 82-89).  `none` is the nil dereference
raised by `backend.Host` or `v.Host`. -/
def backendInSlice (backend : Option StatsDBackend) :
    List (Option StatsDBackend) → Option Bool
  | [] => some false
  | v :: list =>
    match backend, v with
    | some b, some w =>
      if b.Host = w.Host ∧ b.Port = w.Port ∧ b.ManagementPort = w.ManagementPort then some true
      else backendInSlice backend list
    | _, _ => none

/-- How a call of `UpdateRoutingMap` ends. -/
inductive Exit where
  /-- It returned a nil error. -/
  | ok
  /-- It returned the error of `NewStatsDBackend`. -/
  | failed
  /-- It raised a runtime failure. -/
  | crashed
deriving DecidableEq, Repr

/-- State of a running `UpdateRoutingMap`: the routing map, mutated in place, and
the number of calls of `NewStatsDBackend` made so far. -/
structure UpdateState where
  routingMap : RoutingMap
  constructions : Nat
deriving DecidableEq, Repr

/-- `routingMap.Map[rule].Backends = append(routingMap.Map[rule].Backends, backend)`
(routing-map.go line 69); `none` is the nil dereference of a missing rule. -/
def appendBackend (rule : GoString) (backend : Option StatsDBackend)
    (routingMap : RoutingMap) : Option RoutingMap :=
  match mapGet rule routingMap.Map with
  | none => none
  | some r =>
    some { routingMap with
      Map := mapSet rule { r with Backends := r.Backends ++ [backend] } routingMap.Map }

/-- One iteration of the inner loop of `UpdateRoutingMap` (routing-map.go lines
42-75) for `node` under the pattern `rule`. -/
def updateNode (env : Env) (rule : GoString) (node : StatsdNode) (st : UpdateState) :
    UpdateState × Exit :=
  let routingMap := st.routingMap
  let key := backendKey node
  match mapGet key routingMap.backendList with
  | none =>
    match NewStatsDBackend env node.Host node.Port node.ManagementPort
        routingMap.checkInterval with
    | none =>
      ({ routingMap := { routingMap with backendList := mapSet key none routingMap.backendList },
         constructions := st.constructions + 1 }, Exit.failed)
    | some b =>
      let routingMap1 : RoutingMap :=
        { routingMap with backendList := mapSet key (some b) routingMap.backendList }
      match appendBackend rule (some b) routingMap1 with
      | none => ({ routingMap := routingMap1, constructions := st.constructions + 1 }, Exit.crashed)
      | some routingMap2 =>
        ({ routingMap := routingMap2, constructions := st.constructions + 1 }, Exit.ok)
  | some backend =>
    match mapGet rule routingMap.Map with
    | none => (st, Exit.crashed)
    | some r =>
      match backendInSlice backend r.Backends with
      | none => (st, Exit.crashed)
      | some true => (st, Exit.ok)
      | some false =>
        match appendBackend rule backend routingMap with
        | none => (st, Exit.crashed)
        | some routingMap2 => ({ st with routingMap := routingMap2 }, Exit.ok)

/-- The inner loop `for _, node := range nodes` of `UpdateRoutingMap`. -/
def updateNodes (env : Env) (rule : GoString) :
    List StatsdNode → UpdateState → UpdateState × Exit
  | [], st => (st, Exit.ok)
  | node :: rest, st =>
    match updateNode env rule node st with
    | (st1, Exit.ok) => updateNodes env rule rest st1
    | (st1, e) => (st1, e)

/-- The first statement of the outer loop (routing-map.go lines 38-41): a pattern
that is not yet a key of `Map` is compiled and added with no backend. -/
def ensureRule (env : Env) (rule : GoString) (st : UpdateState) : UpdateState × Exit :=
  match mapGet rule st.routingMap.Map with
  | some _ => (st, Exit.ok)
  | none =>
    match Regexp.MustCompile env rule with
    | none => (st, Exit.crashed)
    | some re =>
      ({ st with routingMap :=
          { st.routingMap with Map := mapSet rule { Regexp := re } st.routingMap.Map } },
       Exit.ok)

/-- The outer loop `for rule, nodes := range config.Rules` of `UpdateRoutingMap`. -/
def updateRules (env : Env) :
    List (GoString × List StatsdNode) → UpdateState → UpdateState × Exit
  | [], st => (st, Exit.ok)
  | (rule, nodes) :: rest, st =>
    match ensureRule env rule st with
    | (st1, Exit.ok) =>
      match updateNodes env rule nodes st1 with
      | (st2, Exit.ok) => updateRules env rest st2
      | (st2, e) => (st2, e)
    | (st1, e) => (st1, e)

/-- `RoutingMap.UpdateRoutingMap` of routing-map.go (lines 35-79): the routing map
as the call leaves it, the number of `NewStatsDBackend` calls it made, and how it
ended. -/
def UpdateRoutingMap (env : Env) (routingMap : RoutingMap) (config : RouterConfig) :
    UpdateState × Exit :=
  updateRules env config.Rules { routingMap := routingMap, constructions := 0 }

/-! ## router.go: dispatch -/

/-- One channel send `backend.SendChannel <- payload`. -/
structure Send where
  backend : StatsDBackend
  payload : Option GoString
deriving DecidableEq, Repr

/-- The loop `for _, backend := range rule.Backends` of `metricHandler` (router.go
lines 192-196): the sends made, and whether it failed on a nil backend. -/
def sendToBackends (alive : StatsDBackend → Bool) (raw : Option GoString) :
    List (Option StatsDBackend) → List Send × Bool
  | [] => ([], false)
  | none :: _ => ([], true)
  | some b :: rest =>
    let r := sendToBackends alive raw rest
    if alive b then ({ backend := b, payload := raw } :: r.1, r.2) else r

/-- The loop `for _, rule := range routingMap.Map` of `metricHandler` (router.go
lines 189-198). -/
def sendToRules (env : Env) (alive : StatsDBackend → Bool) (metric : StatsDMetric) :
    List (GoString × RoutingRule) → List Send × Bool
  | [] => ([], false)
  | (_, rule) :: rest =>
    if rule.Regexp.MatchString env metric.name then
      match sendToBackends alive metric.raw rule.Backends with
      | (sends, true) => (sends, true)
      | (sends, false) =>
        let r := sendToRules env alive metric rest
        (sends ++ r.1, r.2)
    else sendToRules env alive metric rest

/-- The `case metric := <-metricsChannel` arm of `metricHandler` (router.go lines
188-201) for one record: the channel sends it makes, in order, and whether it
failed at run time.  `alive` gives the `Status.Alive` flag of every backend. -/
def metricHandler (env : Env) (alive : StatsDBackend → Bool) (routingMap : RoutingMap)
    (masterBackend : StatsDBackend) (metric : StatsDMetric) : List Send × Bool :=
  match sendToRules env alive metric routingMap.Map with
  | (sends, true) => (sends, true)
  | (sends, false) =>
    if alive masterBackend then
      (sends ++ [{ backend := masterBackend, payload := metric.raw }], false)
    else (sends, false)

/-- The rules whose regexp matches `metric.name` and whose backend list contains the
backend `B`. -/
def matchingRules (env : Env) (metric : StatsDMetric) (B : StatsDBackend)
    (rules : List (GoString × RoutingRule)) : List (GoString × RoutingRule) :=
  rules.filter (fun pr =>
    pr.2.Regexp.MatchString env metric.name && decide (some B ∈ pr.2.Backends))

/-- The sends that `sends` makes on the channel of the backend `b`. -/
def sendsTo (b : StatsDBackend) (sends : List Send) : List Send :=
  sends.filter (fun s => s.backend = b)

/-- One line through the pipeline: `parseMetric`, then the record is put on the
metric queue by `packetHandler` and handled by `metricHandler`.  The result is the
list of channel sends and whether a runtime failure occurred. -/
def lineDispatch (env : Env) (alive : StatsDBackend → Bool) (routingMap : RoutingMap)
    (masterBackend : StatsDBackend) (line : GoString) : List Send × Bool :=
  match parseMetric line with
  | Run.crashed => ([], true)
  | Run.returned metric => metricHandler env alive routingMap masterBackend metric

/-! ## Predicates on routing maps -/

/-- The identity triples of the non-nil backends of a list. -/
def identities (l : List (Option StatsDBackend)) : List StatsdNode :=
  l.filterMap (fun x => x.map StatsDBackend.node)

/-- The routing maps reached from the empty one by a sequence of `UpdateRoutingMap`
calls none of which returned the error of a backend construction: a part of the
reachable routing maps (`Reachable`), on which the invariant `Inv` holds. -/
inductive ReachedWithoutFailure : RoutingMap → Prop where
  | empty (checkInterval : Int) : ReachedWithoutFailure (NewRoutingMap checkInterval)
  | update (env : Env) (routingMap : RoutingMap) (config : RouterConfig) :
      ReachedWithoutFailure routingMap →
      (UpdateRoutingMap env routingMap config).2 ≠ Exit.failed →
      ReachedWithoutFailure (UpdateRoutingMap env routingMap config).1.routingMap

/-- The routing maps reached from the empty one by a sequence of `UpdateRoutingMap`
calls, however each call ended: the routing map is mutated in place, so the map a
call leaves is kept also when the call returns the construction error or raises a
runtime failure (the HTTP handler of api.go answers 500 and the router carries on). -/
inductive Reachable : RoutingMap → Prop where
  | empty (checkInterval : Int) : Reachable (NewRoutingMap checkInterval)
  | update (env : Env) (routingMap : RoutingMap) (config : RouterConfig) :
      Reachable routingMap →
      Reachable (UpdateRoutingMap env routingMap config).1.routingMap

/-- Every registry entry holds a constructed backend, under the key of its identity. -/
def RegistryOk (registry : List (GoString × Option StatsDBackend)) : Prop :=
  ∀ kv ∈ registry, ∃ b, kv.2 = some b ∧ kv.1 = backendKey b.node

/-- Every backend of the rule is a constructed backend whose key is in the registry,
and no two of them have the same identity. -/
def RuleOk (registry : List (GoString × Option StatsDBackend)) (r : RoutingRule) : Prop :=
  (∀ x ∈ r.Backends, ∃ b, x = some b ∧ mapGet (backendKey b.node) registry ≠ none) ∧
  (identities r.Backends).Nodup

/-- The invariant of the routing map. -/
def Inv (routingMap : RoutingMap) : Prop :=
  RegistryOk routingMap.backendList ∧
  ∀ pr ∈ routingMap.Map, RuleOk routingMap.backendList pr.2

/-- The second routing map extends the first: registry entries are kept, rules are
kept, and backend lists only grow at the end. -/
def Ext (m1 m2 : RoutingMap) : Prop :=
  (∀ k b, mapGet k m1.backendList = some (some b) → mapGet k m2.backendList = some (some b)) ∧
  (∀ p r, mapGet p m1.Map = some r →
    ∃ r2, mapGet p m2.Map = some r2 ∧ ∃ ext, r2.Backends = r.Backends ++ ext)

/-- The node `n` is installed under the pattern `p`: the pattern is a rule, the
registry has a backend under the key of `n`, and `backendInSlice` finds it in the
rule. -/
def Installed (routingMap : RoutingMap) (p : GoString) (n : StatsdNode) : Prop :=
  ∃ r b, mapGet p routingMap.Map = some r ∧
    mapGet (backendKey n) routingMap.backendList = some (some b) ∧
    backendInSlice (some b) r.Backends = some true

/-- Every pattern of `rules` is a rule and every node of `rules` is installed. -/
def Settled (routingMap : RoutingMap) (rules : List (GoString × List StatsdNode)) : Prop :=
  ∀ pr ∈ rules, mapGet pr.1 routingMap.Map ≠ none ∧ ∀ n ∈ pr.2, Installed routingMap pr.1 n

/-! ## backend.go: the health probe -/

namespace strings

/-- Whether `s` starts with the bytes of `p`. -/
def startsWith : GoString → GoString → Bool
  | _, [] => true
  | [], _ :: _ => false
  | c :: cs, d :: ds => decide (c = d) && startsWith cs ds

/-- Go `strings.Contains(s, substr)`. -/
def Contains : GoString → GoString → Bool
  | [], substr => decide (substr = [])
  | c :: cs, substr => startsWith (c :: cs) substr || Contains cs substr

/-- Go `strings.Trim(s, cutset)` for a cutset of one byte: `s` without its leading
and trailing occurrences of `c`. -/
def Trim (s : GoString) (c : UInt8) : GoString :=
  (((s.dropWhile (fun x => decide (x = c))).reverse).dropWhile
    (fun x => decide (x = c))).reverse

end strings

/-- What the network does on one call of `OpenManagementConnection`. -/
inductive DialOutcome where
  /-- `net.ResolveTCPAddr` returns an error. -/
  | resolveError
  /-- `net.DialTCP` returns the connection `conn`. -/
  | connected (conn : Nat)
  /-- `net.DialTCP` fails with `ECONNREFUSED`. -/
  | refused
  /-- `net.DialTCP` fails with another error. -/
  | dialError
deriving DecidableEq, Repr

/-- The outcomes of the operations of the management connection, as sequences: the
outcome of the `n`-th call of `OpenManagementConnection`, of the `n`-th `Write`
(`true` when it returns a nil error) and of the `n`-th `Read` (the reply buffer, or
`none` when it returns an error), counted from zero. -/
structure ProbeNet where
  dial : Nat → DialOutcome
  write : Nat → Bool
  read : Nat → Option GoString

/-- The part of a `StatsDBackend` the probe works on: the management handle
(`none` is nil), and the number of calls of `OpenManagementConnection`, `Write` and
`Read` made so far. -/
structure ProbeState where
  ManagementConn : Option Nat
  opens : Nat
  writes : Nat
  reads : Nat
deriving DecidableEq, Repr

/-- `StatsDBackend.OpenManagementConnection` of backend.go (lines 76-106): the state
it leaves, and whether it returns an error.  On `ECONNREFUSED` the handle is set to
nil and the error is nil; on any other error the handle is not touched. -/
def OpenManagementConnection (net : ProbeNet) (st : ProbeState) : ProbeState × Bool :=
  let st1 : ProbeState := { st with opens := st.opens + 1 }
  match net.dial st.opens with
  | DialOutcome.resolveError => (st1, true)
  | DialOutcome.dialError => (st1, true)
  | DialOutcome.refused => ({ st1 with ManagementConn := none }, false)
  | DialOutcome.connected conn => ({ st1 with ManagementConn := some conn }, false)

/-- The code of `CheckAliveStatus` from the label `Retry` on (backend.go lines
185-243), `retryCount` being the local variable of that name.  Every `goto Retry`
uses one unit of `fuel`; `none` means that the fuel ran out.  `Write` is reached
only with a non-nil handle: a nil handle is reopened first, and a reopening that
leaves it nil jumps back to `Retry`. -/
def checkAliveLoop (net : ProbeNet) : Nat → Nat → ProbeState → Option (ProbeState × Bool)
  | 0, _, _ => none
  | fuel + 1, retryCount, st =>
    if retryCount > 1 then some (st, false)
    else
      let opened : ProbeState × Bool :=
        match st.ManagementConn with
        | none =>
          let r := OpenManagementConnection net st
          (r.1, r.2 || r.1.ManagementConn.isNone)
        | some _ => (st, false)
      if opened.2 then checkAliveLoop net fuel (retryCount + 1) opened.1
      else
        let st1 : ProbeState := { opened.1 with writes := opened.1.writes + 1 }
        if net.write opened.1.writes = false then
          let r := OpenManagementConnection net st1
          if r.2 then some (r.1, false)
          else checkAliveLoop net fuel (retryCount + 1) r.1
        else
          let st2 : ProbeState := { st1 with reads := st1.reads + 1 }
          match net.read st1.reads with
          | none =>
            let r := OpenManagementConnection net st2
            if r.2 then some (r.1, false)
            else checkAliveLoop net fuel (retryCount + 1) r.1
          | some reply =>
            some (st2, strings.Contains (strings.Trim reply 0) [117, 112])

/-- `StatsDBackend.CheckAliveStatus` of backend.go (lines 177-243): the state it
leaves and the boolean it returns.  `retryCount` starts at `0` and the label `Retry`
is passed at most three times (`checkAliveLoop_total`). -/
def CheckAliveStatus (net : ProbeNet) (st : ProbeState) : Option (ProbeState × Bool) :=
  checkAliveLoop net 3 0 st

/-! ## Concrete inputs: the scenarios of the specification -/

/-- An environment for the scenarios: the patterns `.*`, `^foo` and `bar$` match as
regular expressions do, any other pattern matches the strings it is a leading part
of; the pattern `(` does not compile; the host `bad` cannot be reached. -/
def scenarioEnv : Env where
  compiles := fun e => decide (e ≠ bytesOf "(")
  matchString := fun e s =>
    if e = bytesOf ".*" then true
    else if e = bytesOf "^foo" then decide (s.take 3 = bytesOf "foo")
    else if e = bytesOf "bar$" then decide (s.drop (s.length - 3) = bytesOf "bar")
    else decide (s.take e.length = e)
  dial := fun host port _ => if host = bytesOf "bad" then none else some (host.length + port)

/-- Backend B1 of the scenarios. -/
def scenarioB1 : StatsDBackend :=
  { Host := bytesOf "b1", Port := 8125, ManagementPort := 8126, addr := 1 }

/-- Backend B2 of the scenarios. -/
def scenarioB2 : StatsDBackend :=
  { Host := bytesOf "b2", Port := 8125, ManagementPort := 8126, addr := 2 }

/-- The master backend M of the scenarios. -/
def scenarioMaster : StatsDBackend :=
  { Host := bytesOf "m", Port := 8125, ManagementPort := 8126, addr := 0 }

/-- The routing table of scenario S2: rules `^foo -> [B1, B2]` and `bar$ -> [B2]`. -/
def scenarioS2 : RoutingMap :=
  { Map := [(bytesOf "^foo", { Regexp := { expr := bytesOf "^foo" },
                               Backends := [some scenarioB1, some scenarioB2] }),
            (bytesOf "bar$", { Regexp := { expr := bytesOf "bar$" },
                               Backends := [some scenarioB2] })],
    backendList := [(backendKey scenarioB1.node, some scenarioB1),
                    (backendKey scenarioB2.node, some scenarioB2)],
    checkInterval := 10 }

/-- The routing table of scenario S3: the rule `.* -> [B1, B2]`. -/
def scenarioS3 : RoutingMap :=
  { Map := [(bytesOf ".*", { Regexp := { expr := bytesOf ".*" },
                             Backends := [some scenarioB1, some scenarioB2] })],
    backendList := [(backendKey scenarioB1.node, some scenarioB1),
                    (backendKey scenarioB2.node, some scenarioB2)],
    checkInterval := 10 }

/-- The record of the line `foobar:1|g` (scenario S2). -/
def scenarioFoobar : StatsDMetric :=
  { name := bytesOf "foobar", value := 1, raw := some (bytesOf "foobar:1|g") }

/-- Liveness of scenario S3 and S4: B1 and the master are dead, every other backend
is alive. -/
def scenarioAliveS3 : StatsDBackend → Bool :=
  fun b => decide (b ≠ scenarioB1 ∧ b ≠ scenarioMaster)

/-- The node of B1. -/
def scenarioN1 : StatsdNode := { Host := bytesOf "b1", Port := 8125, ManagementPort := 8126 }

/-- The node of B2. -/
def scenarioN2 : StatsdNode := { Host := bytesOf "b2", Port := 8125, ManagementPort := 8126 }

/-- The initial configuration of scenario S5: `a -> [B1]`. -/
def scenarioInitial : RouterConfig := { Rules := [(bytesOf "a", [scenarioN1])] }

/-- The desired configuration of scenario S5, `a -> [B1, B2]`, `b -> [B2]`, with B2
listed a second time under `a`. -/
def scenarioDesired : RouterConfig :=
  { Rules := [(bytesOf "a", [scenarioN1, scenarioN2, scenarioN2]), (bytesOf "b", [scenarioN2])] }

/-- The desired configuration of scenario S5 with its rules visited in the opposite
order. -/
def scenarioDesiredAgain : RouterConfig :=
  { Rules := [(bytesOf "b", [scenarioN2]), (bytesOf "a", [scenarioN1, scenarioN2, scenarioN2])] }

/-- The routing map of scenario S5 before the update: the empty map updated with
the initial configuration. -/
def scenarioTable : RoutingMap :=
  (UpdateRoutingMap scenarioEnv (NewRoutingMap 10) scenarioInitial).1.routingMap

/-- A configuration whose only pattern, `(`, does not compile. -/
def scenarioBadPattern : RouterConfig := { Rules := [(bytesOf "(", [scenarioN1])] }

/-- A configuration with the valid pattern `a`, visited first, and the pattern `(`. -/
def scenarioMixedPatterns : RouterConfig :=
  { Rules := [(bytesOf "a", [scenarioN1]), (bytesOf "(", [scenarioN2])] }

/-- A node whose host cannot be reached in `scenarioEnv`. -/
def scenarioBadNode : StatsdNode :=
  { Host := bytesOf "bad", Port := 8125, ManagementPort := 8126 }

/-- A configuration that lists the unreachable node under the pattern `a`. -/
def scenarioBadConfig : RouterConfig := { Rules := [(bytesOf "a", [scenarioBadNode])] }

/-- The environment of the scenarios once every host can be reached. -/
def scenarioEnvHealed : Env :=
  { scenarioEnv with dial := fun host port _ => some (host.length + port) }

/-- The routing map left by the update that fails on the unreachable node. -/
def scenarioAfterFailure : RoutingMap :=
  (UpdateRoutingMap scenarioEnv (NewRoutingMap 10) scenarioBadConfig).1.routingMap

/-- The routing map left by a second update with the same configuration, made when
the host can be reached. -/
def scenarioAfterRetry : RoutingMap :=
  (UpdateRoutingMap scenarioEnvHealed scenarioAfterFailure scenarioBadConfig).1.routingMap

/-- A management port on which every `Write` fails, the second connection attempt is
refused and every other attempt connects. -/
def probeFlaky : ProbeNet where
  dial := fun n => if n = 1 then DialOutcome.refused else DialOutcome.connected n
  write := fun _ => false
  read := fun _ => none

/-- A management port on which every connection attempt connects and every `Write`
fails. -/
def probeWriteFails : ProbeNet where
  dial := fun n => DialOutcome.connected n
  write := fun _ => false
  read := fun _ => none

/-- A management port on which every `Write` fails, the first connection attempt is
refused and every other attempt connects. -/
def probeFlakyFirst : ProbeNet where
  dial := fun n => if n = 0 then DialOutcome.refused else DialOutcome.connected n
  write := fun _ => false
  read := fun _ => none

/-- A management port that refuses every connection. -/
def probeDown : ProbeNet where
  dial := fun _ => DialOutcome.refused
  write := fun _ => false
  read := fun _ => none

/-- A backend whose management handle is nil and that has made no call yet. -/
def probeNull : ProbeState := { ManagementConn := none, opens := 0, writes := 0, reads := 0 }

/-- A backend whose management handle is open and that has made no call yet. -/
def probeOpen : ProbeState := { ManagementConn := some 7, opens := 0, writes := 0, reads := 0 }

/-- The record of the line `a:1|c`, which the rule `a` matches. -/
def scenarioMetricA : StatsDMetric :=
  { name := bytesOf "a", value := 1, raw := some (bytesOf "a:1|c") }

/-- A configuration that lists the unreachable node, then B2, under the pattern `a`. -/
def scenarioBadThenB2 : RouterConfig :=
  { Rules := [(bytesOf "a", [scenarioBadNode, scenarioN2])] }

/-- The routing map left by applying `scenarioBadThenB2` after the update that failed
on the unreachable node. -/
def scenarioNilThenB2 : RoutingMap :=
  (UpdateRoutingMap scenarioEnv scenarioAfterFailure scenarioBadThenB2).1.routingMap

/-- The backend that `NewStatsDBackend` builds for the node of B2 in `scenarioEnv`. -/
def scenarioBuiltB2 : StatsDBackend :=
  { Host := bytesOf "b2", Port := 8125, ManagementPort := 8126, addr := 8127 }

/-! ## Lemmas on strings -/

theorem firstSeg_append (a b : GoString) (sep : UInt8) (h : sep ∉ a) :
    firstSeg (a ++ b) sep = a ++ firstSeg b sep := by
  induction a with
  | nil => rfl
  | cons c a ih =>
    have hc : c ≠ sep := fun e => h (by simp [e])
    have ha : sep ∉ a := fun e => h (by simp [e])
    simp [firstSeg, hc, ih ha]

theorem Split_head (s : GoString) (sep : UInt8) :
    ∃ t, strings.Split s sep = firstSeg s sep :: t := by
  induction s with
  | nil => exact ⟨[], rfl⟩
  | cons c s ih =>
    obtain ⟨t, ht⟩ := ih
    by_cases hc : c = sep
    · exact ⟨strings.Split s sep, by simp [strings.Split, hc, firstSeg]⟩
    · exact ⟨t, by simp [strings.Split, hc, ht, firstSeg]⟩

theorem Split_append_sep (a b : GoString) (sep : UInt8) (h : sep ∉ a) :
    strings.Split (a ++ sep :: b) sep = a :: strings.Split b sep := by
  induction a with
  | nil => simp [strings.Split]
  | cons c a ih =>
    have hc : c ≠ sep := fun e => h (by simp [e])
    have ha : sep ∉ a := fun e => h (by simp [e])
    simp [strings.Split, hc, ih ha]

theorem Split_snoc_sep (p : GoString) (sep : UInt8) :
    strings.Split (p ++ [sep]) sep = strings.Split p sep ++ [[]] := by
  induction p with
  | nil => simp [strings.Split]
  | cons c p ih =>
    by_cases hc : c = sep
    · simp [strings.Split, hc] at ih ⊢
      exact ih
    · obtain ⟨t, ht⟩ := Split_head p sep
      simp [strings.Split, hc, ih, ht]

theorem acceptedTypes_clean (typ : GoString) (h : typ ∈ acceptedTypes) :
    colon ∉ typ ∧ bar ∉ typ ∧ atSign ∉ typ := by
  simp only [acceptedTypes, List.mem_cons, List.mem_singleton, List.not_mem_nil, or_false] at h
  rcases h with h | h | h <;> subst h <;> decide

/-- The accepting path of `parseMetric`: a line `name:value|typ` followed by `rest`,
where `rest` is empty or starts with `@`. -/
theorem parseMetric_accepts (name value typ rest : GoString)
    (hN : colon ∉ name) (hV : colon ∉ value) (hV2 : bar ∉ value)
    (hT : typ ∈ acceptedTypes) (hR : rest = [] ∨ ∃ r, rest = atSign :: r) :
    parseMetric (name ++ colon :: (value ++ bar :: (typ ++ rest))) =
      Run.returned { name := name, value := (strconv.ParseInt value).1,
                     raw := some (name ++ colon :: (value ++ bar :: (typ ++ rest))) } := by
  obtain ⟨hTc, hTb, hTa⟩ := acceptedTypes_clean typ hT
  have hcb : colon ≠ bar := by decide
  -- the first two parts of the line
  have h1 : colon ∉ value ++ bar :: typ := by
    simp only [List.mem_append, List.mem_cons, not_or]
    exact ⟨hV, hcb, hTc⟩
  obtain ⟨t0, ht0⟩ := Split_head (value ++ bar :: (typ ++ rest)) colon
  have hp1 : firstSeg (value ++ bar :: (typ ++ rest)) colon
      = value ++ bar :: (typ ++ firstSeg rest colon) := by
    have := firstSeg_append (value ++ bar :: typ) rest colon h1
    simpa using this
  -- the parts of the value
  obtain ⟨t1, ht1⟩ := Split_head (typ ++ firstSeg rest colon) bar
  have hp2 : firstSeg (typ ++ firstSeg rest colon) bar
      = typ ++ firstSeg (firstSeg rest colon) bar := firstSeg_append _ _ _ hTb
  -- the parts of the type
  obtain ⟨t2, ht2⟩ := Split_head (typ ++ firstSeg (firstSeg rest colon) bar) atSign
  have hp3 : firstSeg (typ ++ firstSeg (firstSeg rest colon) bar) atSign = typ := by
    rw [firstSeg_append _ _ _ hTa]
    rcases hR with hR | ⟨r, hR⟩
    · subst hR; simp [firstSeg]
    · subst hR; simp [firstSeg]
  simp [parseMetric, Split_append_sep _ _ _ hN, ht0, hp1, Split_append_sep _ _ _ hV2, ht1, hp2,
    ht2, hp3, hT]

theorem packetLoop_snoc_empty (lines : List GoString) :
    packetLoop (lines ++ [[]]) =
      if (packetLoop lines).2 = true then packetLoop lines
      else ((packetLoop lines).1 ++ [({} : StatsDMetric)], false) := by
  induction lines with
  | nil => decide
  | cons l lines ih =>
    simp only [List.cons_append, packetLoop]
    cases hl : parseMetric l with
    | crashed => simp
    | returned m =>
      by_cases hc : (packetLoop lines).2 = true <;> simp [ih, hc]

theorem Split_no_sep (s : GoString) (sep : UInt8) (h : sep ∉ s) :
    strings.Split s sep = [s] := by
  induction s with
  | nil => rfl
  | cons c s ih =>
    have hc : c ≠ sep := fun e => h (by simp [e])
    have hs : sep ∉ s := fun e => h (by simp [e])
    simp [strings.Split, hc, ih hs]

/-- The failing path of `parseMetric`: when the part between the first `:` and the
next `:` has no `|`, the index expression `valueParts[1]` is out of range. -/
theorem parseMetric_crashes (name rest : GoString) (hN : colon ∉ name)
    (hB : bar ∉ firstSeg rest colon) :
    parseMetric (name ++ colon :: rest) = Run.crashed := by
  obtain ⟨t0, ht0⟩ := Split_head rest colon
  simp [parseMetric, Split_append_sep _ _ _ hN, ht0, Split_no_sep _ _ hB]

/-! ## Parsing: the claims -/

/-- C4. For every line `NAME:VALUE|TYPE` or `NAME:VALUE|TYPE@RATE` in which NAME
contains no `:`, VALUE is a value field (it contains neither `:` nor `|`) and TYPE is
`c`, `ms` or `g`, `parseMetric` returns a record whose name is NAME and whose raw is
byte for byte the input line, the sample-rate suffix included. -/
theorem parseMetric_keeps_line (name value typ rate : GoString)
    (hN : colon ∉ name) (hV : colon ∉ value ∧ bar ∉ value) (hT : typ ∈ acceptedTypes) :
    parseMetric (name ++ colon :: (value ++ bar :: typ)) =
      Run.returned { name := name, value := (strconv.ParseInt value).1,
                     raw := some (name ++ colon :: (value ++ bar :: typ)) } ∧
    parseMetric (name ++ colon :: (value ++ bar :: (typ ++ atSign :: rate))) =
      Run.returned { name := name, value := (strconv.ParseInt value).1,
                     raw := some (name ++ colon :: (value ++ bar :: (typ ++ atSign :: rate))) } := by
  constructor
  · have := parseMetric_accepts name value typ [] hN hV.1 hV.2 hT (Or.inl rfl)
    simpa using this
  · exact parseMetric_accepts name value typ (atSign :: rate) hN hV.1 hV.2 hT
      (Or.inr ⟨rate, rfl⟩)

/-- C4, witness: the lines `x:-12|ms` and `x:-12|ms@0.1`. -/
theorem parseMetric_keeps_line_witness :
    colon ∉ bytesOf "x" ∧ (colon ∉ bytesOf "-12" ∧ bar ∉ bytesOf "-12") ∧
    bytesOf "ms" ∈ acceptedTypes ∧
    (parseMetric (bytesOf "x" ++ colon :: (bytesOf "-12" ++ bar :: bytesOf "ms")) =
      Run.returned { name := bytesOf "x", value := (strconv.ParseInt (bytesOf "-12")).1,
                     raw := some (bytesOf "x" ++ colon :: (bytesOf "-12" ++ bar :: bytesOf "ms")) } ∧
    parseMetric (bytesOf "x" ++ colon ::
        (bytesOf "-12" ++ bar :: (bytesOf "ms" ++ atSign :: bytesOf "0.1"))) =
      Run.returned { name := bytesOf "x", value := (strconv.ParseInt (bytesOf "-12")).1,
                     raw := some (bytesOf "x" ++ colon ::
                       (bytesOf "-12" ++ bar :: (bytesOf "ms" ++ atSign :: bytesOf "0.1"))) }) :=
  ⟨by decide, by decide, by decide,
    parseMetric_keeps_line (bytesOf "x") (bytesOf "-12") (bytesOf "ms") (bytesOf "0.1")
      (by decide) (by decide) (by decide)⟩

/-- C7. The code at the failing inputs: on `foo:1`, and on `a:b:1|c`, `parseMetric`
does not return a record: the index expression `valueParts[1]` is out of range. -/
theorem parseMetric_missing_bar_crashes :
    parseMetric (bytesOf "foo:1") = Run.crashed ∧
    parseMetric (bytesOf "a:b:1|c") = Run.crashed ∧
    packetHandler (bytesOf "ok:1|c\nfoo:1\nlater:2|c") =
      ([{ name := bytesOf "ok", value := 1, raw := some (bytesOf "ok:1|c") }], true) := by
  decide

/-- C8, counterexample: the value `abc` of the line `x:abc|c` is rejected by
`ParseInt`, and yet `parseMetric` returns an accepted record whose raw is the line. -/
theorem parseMetric_non_numeric_not_dropped :
    (strconv.ParseInt (bytesOf "abc")).2 = some strconv.NumError.ErrSyntax ∧
    parseMetric (bytesOf "x:abc|c") =
      Run.returned { name := bytesOf "x", value := 0, raw := some (bytesOf "x:abc|c") } := by
  decide

/-- C8, amended. A line `NAME:VALUE|TYPE` with TYPE in `c`, `ms`, `g` (NAME without
`:`, VALUE without `:` and `|`) whose VALUE is rejected by `ParseInt` is not dropped:
the error of `ParseInt` is discarded and `parseMetric` returns the record with name
NAME, the value `ParseInt` gave, and raw equal to the line. -/
theorem parseMetric_ignores_value_error (name value typ : GoString)
    (hN : colon ∉ name) (hV : colon ∉ value ∧ bar ∉ value) (hT : typ ∈ acceptedTypes)
    (_hE : (strconv.ParseInt value).2 ≠ none) :
    parseMetric (name ++ colon :: (value ++ bar :: typ)) =
      Run.returned { name := name, value := (strconv.ParseInt value).1,
                     raw := some (name ++ colon :: (value ++ bar :: typ)) } := by
  have := parseMetric_accepts name value typ [] hN hV.1 hV.2 hT (Or.inl rfl)
  simpa using this

/-- C8, witness: the line `x:abc|c`. -/
theorem parseMetric_ignores_value_error_witness :
    colon ∉ bytesOf "x" ∧ (colon ∉ bytesOf "abc" ∧ bar ∉ bytesOf "abc") ∧
    bytesOf "c" ∈ acceptedTypes ∧ (strconv.ParseInt (bytesOf "abc")).2 ≠ none ∧
    parseMetric (bytesOf "x" ++ colon :: (bytesOf "abc" ++ bar :: bytesOf "c")) =
      Run.returned { name := bytesOf "x", value := (strconv.ParseInt (bytesOf "abc")).1,
                     raw := some (bytesOf "x" ++ colon :: (bytesOf "abc" ++ bar :: bytesOf "c")) } :=
  ⟨by decide, by decide, by decide, by decide,
    parseMetric_ignores_value_error (bytesOf "x") (bytesOf "abc") (bytesOf "c")
      (by decide) (by decide) (by decide) (by decide)⟩

/-- Empty segments are queued: for the empty packet `packetHandler` puts one record on the
metric queue, and for the packet `a:1|c\n` it puts two, the second one for the empty
segment after the final newline. -/
theorem packetHandler_empty_line_queued :
    packetHandler [] = ([({} : StatsDMetric)], false) ∧
    packetHandler (bytesOf "a:1|c\n") =
      ([{ name := bytesOf "a", value := 1, raw := some (bytesOf "a:1|c") },
        ({} : StatsDMetric)], false) := by
  decide

/-- A trailing newline adds a record: the empty packet yields exactly one record,
and appending a newline to a packet that is handled without a runtime failure adds
one record for the empty segment after it, the blank record of `new(StatsDMetric)`
with empty name and nil raw; a packet that fails at run time fails the same way
with the newline appended. -/
theorem packetHandler_trailing_newline (packet : GoString) :
    packetHandler [] = ([({} : StatsDMetric)], false) ∧
    packetHandler (packet ++ [newline]) =
      (if (packetHandler packet).2 = true then packetHandler packet
       else ((packetHandler packet).1 ++ [({} : StatsDMetric)], false)) := by
  constructor
  · decide
  · simp only [packetHandler, Split_snoc_sep]
    exact packetLoop_snoc_empty _

/-! ## Lemmas on dispatch -/

theorem sendsTo_append (b : StatsDBackend) (xs ys : List Send) :
    sendsTo b (xs ++ ys) = sendsTo b xs ++ sendsTo b ys := by
  simp [sendsTo]

theorem sendToBackends_ok (alive : StatsDBackend → Bool) (raw : Option GoString)
    (l : List (Option StatsDBackend)) (h : none ∉ l) :
    (sendToBackends alive raw l).2 = false := by
  induction l with
  | nil => rfl
  | cons x l ih =>
    cases x with
    | none => simp at h
    | some b =>
      have hl : none ∉ l := fun e => h (by simp [e])
      simp only [sendToBackends]
      split <;> simp [ih hl]

theorem sendToBackends_not_mem (alive : StatsDBackend → Bool) (raw : Option GoString)
    (B : StatsDBackend) (l : List (Option StatsDBackend)) (h : some B ∉ l) :
    sendsTo B (sendToBackends alive raw l).1 = [] := by
  induction l with
  | nil => rfl
  | cons x l ih =>
    cases x with
    | none => rfl
    | some b =>
      have hl : some B ∉ l := fun e => h (by simp [e])
      have hb : b ≠ B := fun e => h (by simp [e])
      simp only [sendToBackends]
      split
      · simp only [sendsTo, List.filter_cons, decide_eq_true_eq, hb, if_false]
        exact ih hl
      · exact ih hl

theorem sendToBackends_dead (alive : StatsDBackend → Bool) (raw : Option GoString)
    (B : StatsDBackend) (l : List (Option StatsDBackend)) (h : alive B = false) :
    sendsTo B (sendToBackends alive raw l).1 = [] := by
  induction l with
  | nil => rfl
  | cons x l ih =>
    cases x with
    | none => rfl
    | some b =>
      simp only [sendToBackends]
      split
      · rename_i hb
        have hne : b ≠ B := fun e => by rw [e, h] at hb; exact Bool.false_ne_true hb
        simp only [sendsTo, List.filter_cons, decide_eq_true_eq, hne, if_false]
        exact ih
      · exact ih

theorem sendToBackends_mem (alive : StatsDBackend → Bool) (raw : Option GoString)
    (B : StatsDBackend) (l : List (Option StatsDBackend)) (hn : none ∉ l) (hd : l.Nodup)
    (h : some B ∈ l) (ha : alive B = true) :
    sendsTo B (sendToBackends alive raw l).1 = [{ backend := B, payload := raw }] := by
  induction l with
  | nil => simp at h
  | cons x l ih =>
    rw [List.nodup_cons] at hd
    cases x with
    | none => simp at hn
    | some b =>
      have hl : none ∉ l := fun e => hn (by simp [e])
      by_cases hb : b = B
      · subst hb
        have hrest := sendToBackends_not_mem alive raw b l hd.1
        simp only [sendToBackends, ha, if_true]
        simp only [sendsTo, List.filter_cons, decide_True, if_true] at hrest ⊢
        rw [hrest]
      · have hm : some B ∈ l := by
          rcases List.mem_cons.1 h with e | e
          · exact absurd (Option.some.inj e).symm hb
          · exact e
        simp only [sendToBackends]
        split
        · simp only [sendsTo, List.filter_cons, decide_eq_true_eq, hb, if_false]
          exact ih hl hd.2 hm
        · exact ih hl hd.2 hm

theorem sendToRules_ok (env : Env) (alive : StatsDBackend → Bool) (metric : StatsDMetric)
    (rules : List (GoString × RoutingRule)) (hnil : ∀ pr ∈ rules, none ∉ pr.2.Backends) :
    (sendToRules env alive metric rules).2 = false := by
  induction rules with
  | nil => rfl
  | cons pr rules ih =>
    obtain ⟨k, rule⟩ := pr
    have hrest : ∀ pr ∈ rules, none ∉ pr.2.Backends := fun q hq => hnil q (by simp [hq])
    have hhead := sendToBackends_ok alive metric.raw rule.Backends (hnil (k, rule) (by simp))
    simp only [sendToRules]
    split
    · split
      · rename_i heq
        rw [heq] at hhead
        exact absurd hhead (by simp)
      · exact ih hrest
    · exact ih hrest

theorem sendToRules_count (env : Env) (alive : StatsDBackend → Bool) (metric : StatsDMetric)
    (B : StatsDBackend) (rules : List (GoString × RoutingRule))
    (hnil : ∀ pr ∈ rules, none ∉ pr.2.Backends) (hdup : ∀ pr ∈ rules, pr.2.Backends.Nodup) :
    sendsTo B (sendToRules env alive metric rules).1 =
      List.replicate (if alive B = true then (matchingRules env metric B rules).length else 0)
        { backend := B, payload := metric.raw } := by
  induction rules with
  | nil => simp [sendToRules, sendsTo, matchingRules]
  | cons pr rules ih =>
    obtain ⟨k, rule⟩ := pr
    have hrest : ∀ pr ∈ rules, none ∉ pr.2.Backends := fun q hq => hnil q (by simp [hq])
    have hrest2 : ∀ pr ∈ rules, pr.2.Backends.Nodup := fun q hq => hdup q (by simp [hq])
    have hn := hnil (k, rule) (by simp)
    have hd := hdup (k, rule) (by simp)
    have hhead := sendToBackends_ok alive metric.raw rule.Backends hn
    have ih := ih hrest hrest2
    simp only [sendToRules]
    by_cases hm : rule.Regexp.MatchString env metric.name = true
    · simp only [hm, if_true]
      split
      · rename_i heq
        rw [heq] at hhead
        exact absurd hhead (by simp)
      · rename_i sends heq
        have hs : sends = (sendToBackends alive metric.raw rule.Backends).1 := by rw [heq]
        simp only [sendsTo_append, ih, hs]
        by_cases ha : alive B = true
        · by_cases hmem : some B ∈ rule.Backends
          · rw [sendToBackends_mem alive metric.raw B _ hn hd hmem ha]
            simp [matchingRules, List.filter_cons, hm, hmem, ha, List.replicate_succ]
          · rw [sendToBackends_not_mem alive metric.raw B _ hmem]
            simp [matchingRules, List.filter_cons, hm, hmem, ha]
        · have ha2 : alive B = false := by simpa using ha
          rw [sendToBackends_dead alive metric.raw B _ ha2]
          simp [ha2]
    · have hm2 : rule.Regexp.MatchString env metric.name = false := by simpa using hm
      simp only [hm2]
      simp only [Bool.false_eq_true, if_false, ih]
      simp [matchingRules, List.filter_cons, hm2]

theorem sendToRules_not_mem (env : Env) (alive : StatsDBackend → Bool) (metric : StatsDMetric)
    (B : StatsDBackend) (rules : List (GoString × RoutingRule))
    (h : ∀ pr ∈ rules, some B ∉ pr.2.Backends) :
    sendsTo B (sendToRules env alive metric rules).1 = [] := by
  induction rules with
  | nil => rfl
  | cons pr rules ih =>
    obtain ⟨k, rule⟩ := pr
    have hrest : ∀ pr ∈ rules, some B ∉ pr.2.Backends := fun q hq => h q (by simp [hq])
    have hhead := sendToBackends_not_mem alive metric.raw B rule.Backends (h (k, rule) (by simp))
    simp only [sendToRules]
    split
    · split
      · rename_i sends heq
        have hs : sends = (sendToBackends alive metric.raw rule.Backends).1 := by rw [heq]
        rw [hs]; exact hhead
      · rename_i sends heq
        have hs : sends = (sendToBackends alive metric.raw rule.Backends).1 := by rw [heq]
        simp only [sendsTo_append, ih hrest, hs, hhead, List.append_nil]
    · exact ih hrest

theorem sendToRules_no_match (env : Env) (alive : StatsDBackend → Bool) (metric : StatsDMetric)
    (rules : List (GoString × RoutingRule))
    (h : ∀ pr ∈ rules, pr.2.Regexp.MatchString env metric.name = false) :
    sendToRules env alive metric rules = ([], false) := by
  induction rules with
  | nil => rfl
  | cons pr rules ih =>
    obtain ⟨k, rule⟩ := pr
    have hrest : ∀ pr ∈ rules, pr.2.Regexp.MatchString env metric.name = false :=
      fun q hq => h q (by simp [hq])
    have hhead : rule.Regexp.MatchString env metric.name = false := h (k, rule) (by simp)
    simp only [sendToRules, hhead, Bool.false_eq_true, if_false]
    exact ih hrest

/-! ## Dispatch: the claims -/

/-- Dispatch on a well-formed table. Handling one record in `metricHandler`, on a
routing table whose rules list no nil backend and no backend twice, puts `record.raw` on the send queue of a rule
backend `B` (an object other than the master) exactly as many times as there are
rules whose regexp matches `record.name` and whose backend list contains `B` when
`B` is alive, and zero times when `B` is not alive; the handler does not fail. -/
theorem metricHandler_rule_backend_copies (env : Env) (alive : StatsDBackend → Bool)
    (routingMap : RoutingMap) (masterBackend : StatsDBackend) (metric : StatsDMetric)
    (B : StatsDBackend)
    (hnil : ∀ pr ∈ routingMap.Map, none ∉ pr.2.Backends)
    (hdup : ∀ pr ∈ routingMap.Map, pr.2.Backends.Nodup)
    (hB : B ≠ masterBackend) :
    (metricHandler env alive routingMap masterBackend metric).2 = false ∧
    sendsTo B (metricHandler env alive routingMap masterBackend metric).1 =
      List.replicate
        (if alive B = true then (matchingRules env metric B routingMap.Map).length else 0)
        { backend := B, payload := metric.raw } := by
  have hok := sendToRules_ok env alive metric routingMap.Map hnil
  have hcount := sendToRules_count env alive metric B routingMap.Map hnil hdup
  have hne : masterBackend ≠ B := fun e => hB e.symm
  simp only [metricHandler]
  split
  · rename_i sends heq
    rw [heq] at hok
    exact absurd hok (by simp)
  · rename_i sends heq
    have hs : sends = (sendToRules env alive metric routingMap.Map).1 := by rw [heq]
    subst hs
    split
    · refine ⟨rfl, ?_⟩
      simp only [sendsTo_append, hcount]
      simp [sendsTo, hne]
    · exact ⟨rfl, hcount⟩

/-- Scenario S2 as an instance of the dispatch theorem (rules `^foo -> [B1, B2]`, `bar$ -> [B2]`, every backend
alive, record `foobar:1|g`): B2 receives two copies. -/
theorem metricHandler_rule_backend_copies_witness :
    (∀ pr ∈ scenarioS2.Map, none ∉ pr.2.Backends) ∧
    (∀ pr ∈ scenarioS2.Map, pr.2.Backends.Nodup) ∧
    scenarioB2 ≠ scenarioMaster ∧
    (metricHandler scenarioEnv (fun _ => true) scenarioS2 scenarioMaster scenarioFoobar).2
      = false ∧
    sendsTo scenarioB2
        (metricHandler scenarioEnv (fun _ => true) scenarioS2 scenarioMaster scenarioFoobar).1 =
      List.replicate
        (if (fun _ => true) scenarioB2 = true then
          (matchingRules scenarioEnv scenarioFoobar scenarioB2 scenarioS2.Map).length else 0)
        { backend := scenarioB2, payload := scenarioFoobar.raw } :=
  ⟨by decide, by decide, by decide,
    metricHandler_rule_backend_copies scenarioEnv (fun _ => true) scenarioS2 scenarioMaster
      scenarioFoobar scenarioB2 (by decide) (by decide) (by decide)⟩

/-- Scenario S2, evaluated: B1 receives one copy, B2 two, the master one. -/
theorem scenario_S2_copies :
    (metricHandler scenarioEnv (fun _ => true) scenarioS2 scenarioMaster scenarioFoobar).1 =
      [{ backend := scenarioB1, payload := some (bytesOf "foobar:1|g") },
       { backend := scenarioB2, payload := some (bytesOf "foobar:1|g") },
       { backend := scenarioB2, payload := some (bytesOf "foobar:1|g") },
       { backend := scenarioMaster, payload := some (bytesOf "foobar:1|g") }] := by
  decide

/-- Scenario S3, evaluated: the dead B1 receives nothing, B2 one copy (the master
is dead as well). -/
theorem scenario_S3_copies :
    lineDispatch scenarioEnv scenarioAliveS3 scenarioS3 scenarioMaster (bytesOf "x:1|c") =
      ([{ backend := scenarioB2, payload := some (bytesOf "x:1|c") }], false) := by
  decide

/-- The master on a well-formed table. Handling one record in `metricHandler`, on a
routing table whose rules list no nil backend and do not list the master object, puts `record.raw` on the master's
send queue exactly once when the master's alive flag is true, whether or not a rule
matches, and not at all when the flag is false; with a dead master and no matching
rule nothing is put on any queue. -/
theorem metricHandler_master_copy (env : Env) (alive : StatsDBackend → Bool)
    (routingMap : RoutingMap) (masterBackend : StatsDBackend) (metric : StatsDMetric)
    (hnil : ∀ pr ∈ routingMap.Map, none ∉ pr.2.Backends)
    (hM : ∀ pr ∈ routingMap.Map, some masterBackend ∉ pr.2.Backends) :
    (metricHandler env alive routingMap masterBackend metric).2 = false ∧
    sendsTo masterBackend (metricHandler env alive routingMap masterBackend metric).1 =
      (if alive masterBackend = true then [{ backend := masterBackend, payload := metric.raw }]
       else []) ∧
    (alive masterBackend = false →
      (∀ pr ∈ routingMap.Map, pr.2.Regexp.MatchString env metric.name = false) →
      (metricHandler env alive routingMap masterBackend metric).1 = []) := by
  have hok := sendToRules_ok env alive metric routingMap.Map hnil
  have hnone := sendToRules_not_mem env alive metric masterBackend routingMap.Map hM
  refine ⟨?_, ?_, ?_⟩
  · simp only [metricHandler]
    split
    · rename_i sends heq
      rw [heq] at hok
      exact absurd hok (by simp)
    · split <;> rfl
  · simp only [metricHandler]
    split
    · rename_i sends heq
      rw [heq] at hok
      exact absurd hok (by simp)
    · rename_i sends heq
      have hs : sends = (sendToRules env alive metric routingMap.Map).1 := by rw [heq]
      subst hs
      split
      · simp only [sendsTo_append, hnone]
        simp [sendsTo]
      · exact hnone
  · intro hdead hno
    simp [metricHandler, sendToRules_no_match env alive metric routingMap.Map hno, hdead]

/-- Scenario S3 with a live master, as an instance: the master receives one copy. -/
theorem metricHandler_master_copy_witness :
    (∀ pr ∈ scenarioS3.Map, none ∉ pr.2.Backends) ∧
    (∀ pr ∈ scenarioS3.Map, some scenarioMaster ∉ pr.2.Backends) ∧
    sendsTo scenarioMaster
        (metricHandler scenarioEnv (fun _ => true) scenarioS3 scenarioMaster scenarioFoobar).1 =
      (if (fun _ => true) scenarioMaster = true then
        [{ backend := scenarioMaster, payload := scenarioFoobar.raw }] else []) :=
  ⟨by decide, by decide,
    (metricHandler_master_copy scenarioEnv (fun _ => true) scenarioS3 scenarioMaster
      scenarioFoobar (by decide) (by decide)).2.1⟩

/-- Scenario S4, evaluated: dead master, no rule: nothing is sent. -/
theorem scenario_S4_no_egress :
    lineDispatch scenarioEnv scenarioAliveS3 (NewRoutingMap 10) scenarioMaster
      (bytesOf "x:1|c") = ([], false) := by
  decide

/-- C3. The code at the failing input: the line `x:1|xyz`, whose type is not `c`,
`ms` or `g`, is parsed to the blank record, which is dispatched like any other: with
the rule `.* -> [B1, B2]` and every backend alive, a nil payload is put on the send
queues of B1, of B2 and of the master; with no rule at all it is still put on the
master's queue. -/
theorem unknown_type_line_is_dispatched :
    parseMetric (bytesOf "x:1|xyz") = Run.returned {} ∧
    lineDispatch scenarioEnv (fun _ => true) scenarioS3 scenarioMaster (bytesOf "x:1|xyz") =
      ([{ backend := scenarioB1, payload := none }, { backend := scenarioB2, payload := none },
        { backend := scenarioMaster, payload := none }], false) ∧
    lineDispatch scenarioEnv (fun _ => true) (NewRoutingMap 10) scenarioMaster
        (bytesOf "x:1|xyz") =
      ([{ backend := scenarioMaster, payload := none }], false) := by
  decide

/-! ## Lemmas on maps -/

theorem mapGet_mapSet_same {β : Type} (k : GoString) (v : β) (l : List (GoString × β)) :
    mapGet k (mapSet k v l) = some v := by
  induction l with
  | nil => simp [mapSet, mapGet]
  | cons x l ih =>
    obtain ⟨k1, v1⟩ := x
    by_cases h : k1 = k
    · simp [mapSet, mapGet, h]
    · simp [mapSet, mapGet, h, ih]

theorem mapGet_mapSet_other {β : Type} (k k2 : GoString) (v : β) (l : List (GoString × β))
    (hne : k2 ≠ k) : mapGet k2 (mapSet k v l) = mapGet k2 l := by
  induction l with
  | nil =>
    have : k ≠ k2 := fun e => hne e.symm
    simp [mapSet, mapGet, this]
  | cons x l ih =>
    obtain ⟨k1, v1⟩ := x
    by_cases h : k1 = k
    · have hkk : k ≠ k2 := fun e => hne e.symm
      subst h
      simp [mapSet, mapGet, hkk]
    · by_cases h2 : k1 = k2
      · subst h2
        simp [mapSet, mapGet, h]
      · simp [mapSet, mapGet, h, h2, ih]

theorem mem_mapSet {β : Type} (k : GoString) (v : β) (l : List (GoString × β))
    (x : GoString × β) (hx : x ∈ mapSet k v l) : x = (k, v) ∨ x ∈ l := by
  induction l with
  | nil => simpa [mapSet] using hx
  | cons y l ih =>
    obtain ⟨k1, v1⟩ := y
    by_cases h : k1 = k
    · simp only [mapSet, h, if_true, List.mem_cons] at hx
      rcases hx with hx | hx
      · exact Or.inl hx
      · exact Or.inr (List.mem_cons_of_mem _ hx)
    · simp only [mapSet, h, if_false, List.mem_cons] at hx
      rcases hx with hx | hx
      · exact Or.inr (by simp [hx])
      · rcases ih hx with e | e
        · exact Or.inl e
        · exact Or.inr (List.mem_cons_of_mem _ e)

theorem mapGet_mem {β : Type} (k : GoString) (v : β) (l : List (GoString × β))
    (h : mapGet k l = some v) : (k, v) ∈ l := by
  induction l with
  | nil => simp [mapGet] at h
  | cons y l ih =>
    obtain ⟨k1, v1⟩ := y
    by_cases hk : k1 = k
    · simp only [mapGet, hk, if_true, Option.some.injEq] at h
      simp [hk, h]
    · simp only [mapGet, hk, if_false] at h
      exact List.mem_cons_of_mem _ (ih h)

theorem mapGet_mapSet_ne_none {β : Type} (k k2 : GoString) (v : β) (l : List (GoString × β))
    (h : mapGet k2 l ≠ none) : mapGet k2 (mapSet k v l) ≠ none := by
  by_cases hk : k2 = k
  · subst hk
    simp [mapGet_mapSet_same]
  · rw [mapGet_mapSet_other k k2 v l hk]
    exact h

/-! ## Lemmas on backendInSlice -/

theorem node_eq_iff (b w : StatsDBackend) :
    b.node = w.node ↔ b.Host = w.Host ∧ b.Port = w.Port ∧ b.ManagementPort = w.ManagementPort := by
  simp [StatsDBackend.node]

theorem identities_snoc (l : List (Option StatsDBackend)) (b : StatsDBackend) :
    identities (l ++ [some b]) = identities l ++ [b.node] := by
  simp [identities, List.filterMap_append]

theorem mem_identities (l : List (Option StatsDBackend)) (n : StatsdNode) :
    n ∈ identities l ↔ ∃ b, some b ∈ l ∧ b.node = n := by
  simp only [identities, List.mem_filterMap, Option.map_eq_some']
  constructor
  · rintro ⟨a, ha, b, hb, hn⟩
    exact ⟨b, hb ▸ ha, hn⟩
  · rintro ⟨b, hb, hn⟩
    exact ⟨some b, hb, b, rfl, hn⟩

theorem backendInSlice_append (b : StatsDBackend) (l ext : List (Option StatsDBackend))
    (h : backendInSlice (some b) l = some true) :
    backendInSlice (some b) (l ++ ext) = some true := by
  induction l with
  | nil => simp [backendInSlice] at h
  | cons x l ih =>
    cases x with
    | none => simp [backendInSlice] at h
    | some w =>
      simp only [List.cons_append, backendInSlice] at h ⊢
      split
      · rfl
      · rename_i hne
        rw [if_neg hne] at h
        exact ih h

theorem backendInSlice_snoc_self (b : StatsDBackend) (l : List (Option StatsDBackend))
    (hn : none ∉ l) : backendInSlice (some b) (l ++ [some b]) = some true := by
  induction l with
  | nil => simp [backendInSlice]
  | cons x l ih =>
    cases x with
    | none => simp at hn
    | some w =>
      have hl : none ∉ l := fun e => hn (by simp [e])
      simp only [List.cons_append, backendInSlice]
      split
      · rfl
      · exact ih hl

theorem backendInSlice_true (b : StatsDBackend) (l : List (Option StatsDBackend))
    (h : backendInSlice (some b) l = some true) : b.node ∈ identities l := by
  induction l with
  | nil => simp [backendInSlice] at h
  | cons x l ih =>
    cases x with
    | none => simp [backendInSlice] at h
    | some w =>
      simp only [backendInSlice] at h
      by_cases hw : b.Host = w.Host ∧ b.Port = w.Port ∧ b.ManagementPort = w.ManagementPort
      · rw [mem_identities]
        exact ⟨w, by simp, ((node_eq_iff b w).2 hw).symm⟩
      · rw [if_neg hw] at h
        have := ih h
        rw [mem_identities] at this ⊢
        obtain ⟨c, hc, hcn⟩ := this
        exact ⟨c, List.mem_cons_of_mem _ hc, hcn⟩

theorem backendInSlice_false (b : StatsDBackend) (l : List (Option StatsDBackend))
    (h : backendInSlice (some b) l = some false) : b.node ∉ identities l := by
  induction l with
  | nil => simp [identities]
  | cons x l ih =>
    cases x with
    | none => simp [backendInSlice] at h
    | some w =>
      simp only [backendInSlice] at h
      by_cases hw : b.Host = w.Host ∧ b.Port = w.Port ∧ b.ManagementPort = w.ManagementPort
      · rw [if_pos hw] at h
        simp at h
      · rw [if_neg hw] at h
        have := ih h
        rw [mem_identities] at this ⊢
        rintro ⟨c, hc, hcn⟩
        rcases List.mem_cons.1 hc with e | e
        · have e2 : c = w := Option.some.inj e
          subst e2
          exact hw ((node_eq_iff b c).1 hcn.symm)
        · exact this ⟨c, e, hcn⟩

/-! ## The invariant along an update -/

theorem Ext_refl (m : RoutingMap) : Ext m m :=
  ⟨fun _ _ h => h, fun _ r h => ⟨r, h, [], by simp⟩⟩

theorem Ext_trans (m1 m2 m3 : RoutingMap) (h12 : Ext m1 m2) (h23 : Ext m2 m3) : Ext m1 m3 := by
  refine ⟨fun k b h => h23.1 k b (h12.1 k b h), fun p r h => ?_⟩
  obtain ⟨r2, hr2, e2, he2⟩ := h12.2 p r h
  obtain ⟨r3, hr3, e3, he3⟩ := h23.2 p r2 hr2
  exact ⟨r3, hr3, e2 ++ e3, by rw [he3, he2, List.append_assoc]⟩

theorem Ext_registry (m : RoutingMap) (key : GoString) (v : Option StatsDBackend)
    (h : mapGet key m.backendList = none) :
    Ext m { m with backendList := mapSet key v m.backendList } := by
  refine ⟨fun k b hk => ?_, fun _ r hr => ⟨r, hr, [], by simp⟩⟩
  have hne : k ≠ key := fun e => by rw [e, h] at hk; exact absurd hk (by simp)
  show mapGet k (mapSet key v m.backendList) = some (some b)
  rw [mapGet_mapSet_other key k v _ hne]
  exact hk

theorem Ext_append (m : RoutingMap) (rule : GoString) (r : RoutingRule)
    (tail : List (Option StatsDBackend)) (h : mapGet rule m.Map = some r) :
    Ext m { m with Map := mapSet rule { r with Backends := r.Backends ++ tail } m.Map } := by
  refine ⟨fun _ _ hk => hk, fun p r0 hr0 => ?_⟩
  show ∃ r2, mapGet p (mapSet rule _ m.Map) = some r2 ∧ _
  by_cases hp : p = rule
  · subst hp
    rw [h] at hr0
    have e : r = r0 := Option.some.inj hr0
    subst e
    exact ⟨_, mapGet_mapSet_same _ _ _, tail, rfl⟩
  · rw [mapGet_mapSet_other rule p _ _ hp]
    exact ⟨r0, hr0, [], by simp⟩

theorem Ext_addRule (m : RoutingMap) (rule : GoString) (r : RoutingRule)
    (h : mapGet rule m.Map = none) :
    Ext m { m with Map := mapSet rule r m.Map } := by
  refine ⟨fun _ _ hk => hk, fun p r0 hr0 => ?_⟩
  have hp : p ≠ rule := fun e => by rw [e, h] at hr0; exact absurd hr0 (by simp)
  show ∃ r2, mapGet p (mapSet rule r m.Map) = some r2 ∧ _
  rw [mapGet_mapSet_other rule p _ _ hp]
  exact ⟨r0, hr0, [], by simp⟩

theorem Installed_Ext (m1 m2 : RoutingMap) (p : GoString) (n : StatsdNode) (h : Ext m1 m2)
    (hi : Installed m1 p n) : Installed m2 p n := by
  obtain ⟨r, b, hr, hb, hs⟩ := hi
  obtain ⟨r2, hr2, tail, ht⟩ := h.2 p r hr
  exact ⟨r2, b, hr2, h.1 _ b hb, by rw [ht]; exact backendInSlice_append b _ _ hs⟩

theorem Inv_no_nil (m : RoutingMap) (rule : GoString) (r : RoutingRule) (hinv : Inv m)
    (h : mapGet rule m.Map = some r) : none ∉ r.Backends := by
  intro hmem
  obtain ⟨b, hb, _⟩ := (hinv.2 (rule, r) (mapGet_mem _ _ _ h)).1 none hmem
  exact absurd hb (by simp)

theorem Inv_registry (m : RoutingMap) (b : StatsDBackend) (hinv : Inv m) :
    Inv { m with backendList := mapSet (backendKey b.node) (some b) m.backendList } := by
  refine ⟨fun kv hkv => ?_, fun pr hpr => ⟨fun x hx => ?_, (hinv.2 pr hpr).2⟩⟩
  · rcases mem_mapSet _ _ _ kv hkv with e | e
    · exact ⟨b, by rw [e], by rw [e]⟩
    · exact hinv.1 kv e
  · obtain ⟨c, hc, hk⟩ := (hinv.2 pr hpr).1 x hx
    exact ⟨c, hc, mapGet_mapSet_ne_none _ _ _ _ hk⟩

theorem Inv_addRule (m : RoutingMap) (rule : GoString) (re : Regexp) (hinv : Inv m) :
    Inv { m with Map := mapSet rule { Regexp := re } m.Map } := by
  refine ⟨hinv.1, fun pr hpr => ?_⟩
  rcases mem_mapSet _ _ _ pr hpr with e | e
  · rw [e]
    exact ⟨fun x hx => by simp at hx, by simp [identities]⟩
  · exact hinv.2 pr e

theorem Inv_append (m : RoutingMap) (rule : GoString) (r : RoutingRule) (b : StatsDBackend)
    (hinv : Inv m) (h : mapGet rule m.Map = some r)
    (hk : mapGet (backendKey b.node) m.backendList ≠ none)
    (hnew : b.node ∉ identities r.Backends) :
    Inv { m with Map := mapSet rule { r with Backends := r.Backends ++ [some b] } m.Map } := by
  refine ⟨hinv.1, fun pr hpr => ?_⟩
  rcases mem_mapSet _ _ _ pr hpr with e | e
  · rw [e]
    have hr := hinv.2 (rule, r) (mapGet_mem _ _ _ h)
    refine ⟨fun x hx => ?_, ?_⟩
    · rcases List.mem_append.1 hx with hx | hx
      · exact hr.1 x hx
      · exact ⟨b, by simpa using hx, hk⟩
    · show (identities (r.Backends ++ [some b])).Nodup
      rw [identities_snoc]
      refine List.Nodup.append hr.2 (List.nodup_singleton _) ?_
      intro a ha hb
      have e : a = b.node := by simpa using hb
      exact hnew (e ▸ ha)
  · exact hinv.2 pr e

/-- What one step of the inner loop does to a routing map that satisfies the
invariant and has the rule. -/
theorem updateNode_spec (env : Env) (rule : GoString) (node : StatsdNode) (st : UpdateState)
    (hinv : Inv st.routingMap) (hrule : mapGet rule st.routingMap.Map ≠ none) :
    Ext st.routingMap (updateNode env rule node st).1.routingMap ∧
    ((updateNode env rule node st).2 ≠ Exit.failed →
      Inv (updateNode env rule node st).1.routingMap) ∧
    ((updateNode env rule node st).2 = Exit.ok →
      Installed (updateNode env rule node st).1.routingMap rule node) := by
  obtain ⟨r, hr⟩ := Option.ne_none_iff_exists'.1 hrule
  have hnn := Inv_no_nil _ _ _ hinv hr
  cases hk : mapGet (backendKey node) st.routingMap.backendList with
  | none =>
    cases hd : env.dial node.Host node.Port node.ManagementPort with
    | none =>
      simp only [updateNode, hk, NewStatsDBackend, hd]
      exact ⟨Ext_registry _ _ _ hk, fun h => absurd rfl h, fun h => by simp at h⟩
    | some a =>
      simp only [updateNode, hk, NewStatsDBackend, hd, appendBackend, hr]
      have hb : ∀ b : StatsDBackend, b.node = node →
          Ext st.routingMap
            { Map := mapSet rule { r with Backends := r.Backends ++ [some b] } st.routingMap.Map,
              backendList := mapSet (backendKey node) (some b) st.routingMap.backendList,
              checkInterval := st.routingMap.checkInterval } ∧
          Inv
            { Map := mapSet rule { r with Backends := r.Backends ++ [some b] } st.routingMap.Map,
              backendList := mapSet (backendKey node) (some b) st.routingMap.backendList,
              checkInterval := st.routingMap.checkInterval } ∧
          Installed
            { Map := mapSet rule { r with Backends := r.Backends ++ [some b] } st.routingMap.Map,
              backendList := mapSet (backendKey node) (some b) st.routingMap.backendList,
              checkInterval := st.routingMap.checkInterval } rule node := by
        intro b hbn
        have hnew : b.node ∉ identities r.Backends := by
          intro hmem
          obtain ⟨c, hc, hcn⟩ := (mem_identities _ _).1 hmem
          obtain ⟨c2, hc2, hk2⟩ := (hinv.2 (rule, r) (mapGet_mem _ _ _ hr)).1 (some c) hc
          have e : c = c2 := Option.some.inj hc2
          rw [← e, hcn, hbn, hk] at hk2
          exact hk2 rfl
        have hinv1 := Inv_registry st.routingMap b hinv
        rw [hbn] at hinv1
        refine ⟨?_, ?_, ?_⟩
        · exact Ext_trans _ _ _ (Ext_registry st.routingMap (backendKey node) (some b) hk)
            (Ext_append
              { st.routingMap with
                backendList := mapSet (backendKey node) (some b) st.routingMap.backendList }
              rule r [some b] hr)
        · exact Inv_append
            { st.routingMap with
              backendList := mapSet (backendKey node) (some b) st.routingMap.backendList }
            rule r b hinv1 hr (by rw [hbn]; simp [mapGet_mapSet_same]) hnew
        · exact ⟨_, b, mapGet_mapSet_same _ _ _, mapGet_mapSet_same _ _ _,
            backendInSlice_snoc_self b r.Backends hnn⟩
      have h3 := hb { Host := node.Host, Port := node.Port,
                      ManagementPort := node.ManagementPort, addr := a } rfl
      exact ⟨h3.1, fun _ => h3.2.1, fun _ => h3.2.2⟩
  | some backend =>
    obtain ⟨b, hb1, hb2⟩ := hinv.1 _ (mapGet_mem _ _ _ hk)
    have hb1 : backend = some b := hb1
    have hb2 : backendKey node = backendKey b.node := hb2
    subst hb1
    cases hs : backendInSlice (some b) r.Backends with
    | none =>
      simp only [updateNode, hk, hr, hs]
      exact ⟨Ext_refl _, fun _ => hinv, fun h => by simp at h⟩
    | some found =>
      cases found with
      | true =>
        simp only [updateNode, hk, hr, hs]
        exact ⟨Ext_refl _, fun _ => hinv, fun _ => ⟨r, b, hr, hk, hs⟩⟩
      | false =>
        simp only [updateNode, hk, hr, hs, appendBackend]
        refine ⟨Ext_append _ rule r [some b] hr, fun _ => ?_, fun _ => ?_⟩
        · exact Inv_append st.routingMap rule r b hinv hr
            (by rw [← hb2, hk]; simp) (backendInSlice_false b _ hs)
        · exact ⟨_, b, mapGet_mapSet_same _ _ _, hk, backendInSlice_snoc_self b r.Backends hnn⟩

theorem updateNodes_spec (env : Env) (rule : GoString) (nodes : List StatsdNode)
    (st : UpdateState) (hinv : Inv st.routingMap)
    (hrule : mapGet rule st.routingMap.Map ≠ none) :
    Ext st.routingMap (updateNodes env rule nodes st).1.routingMap ∧
    ((updateNodes env rule nodes st).2 ≠ Exit.failed →
      Inv (updateNodes env rule nodes st).1.routingMap) ∧
    ((updateNodes env rule nodes st).2 = Exit.ok →
      ∀ n ∈ nodes, Installed (updateNodes env rule nodes st).1.routingMap rule n) := by
  induction nodes generalizing st with
  | nil => exact ⟨Ext_refl _, fun _ => hinv, fun _ n hn => by simp at hn⟩
  | cons node rest ih =>
    obtain ⟨hext, hinv1, hinst⟩ := updateNode_spec env rule node st hinv hrule
    cases hstep : updateNode env rule node st with
    | mk st1 e =>
      rw [hstep] at hext hinv1 hinst
      cases e with
      | ok =>
        have hinv2 : Inv st1.routingMap := hinv1 (by simp)
        obtain ⟨r, hr⟩ := Option.ne_none_iff_exists'.1 hrule
        obtain ⟨r2, hr2, _⟩ := hext.2 rule r hr
        have hrule2 : mapGet rule st1.routingMap.Map ≠ none := by rw [hr2]; simp
        obtain ⟨hext2, hinv3, hinst2⟩ := ih st1 hinv2 hrule2
        simp only [updateNodes, hstep]
        refine ⟨Ext_trans _ _ _ hext hext2, hinv3, fun hok n hn => ?_⟩
        rcases List.mem_cons.1 hn with e | e
        · rw [e]
          exact Installed_Ext _ _ _ _ hext2 (hinst rfl)
        · exact hinst2 hok n e
      | failed =>
        simp only [updateNodes, hstep]
        exact ⟨hext, fun h => absurd rfl h, fun h => by simp at h⟩
      | crashed =>
        simp only [updateNodes, hstep]
        exact ⟨hext, fun _ => hinv1 (by simp), fun h => by simp at h⟩

theorem ensureRule_spec (env : Env) (rule : GoString) (st : UpdateState)
    (hinv : Inv st.routingMap) :
    Ext st.routingMap (ensureRule env rule st).1.routingMap ∧
    Inv (ensureRule env rule st).1.routingMap ∧
    (ensureRule env rule st).2 ≠ Exit.failed ∧
    ((ensureRule env rule st).2 = Exit.ok →
      mapGet rule (ensureRule env rule st).1.routingMap.Map ≠ none) := by
  cases hr : mapGet rule st.routingMap.Map with
  | some r =>
    simp only [ensureRule, hr]
    exact ⟨Ext_refl _, hinv, by simp, fun _ => by simp⟩
  | none =>
    by_cases hc : env.compiles rule = true
    · simp only [ensureRule, hr, Regexp.MustCompile, hc, if_true]
      exact ⟨Ext_addRule _ _ _ hr, Inv_addRule _ _ _ hinv, by simp,
        fun _ => by simp [mapGet_mapSet_same]⟩
    · simp only [ensureRule, hr, Regexp.MustCompile, hc]
      exact ⟨Ext_refl _, hinv, by simp, fun h => by simp at h⟩

theorem Settled_Ext (m1 m2 : RoutingMap) (rules : List (GoString × List StatsdNode))
    (h : Ext m1 m2) (hs : Settled m1 rules) : Settled m2 rules := by
  intro pr hpr
  obtain ⟨hp, hn⟩ := hs pr hpr
  obtain ⟨r, hr⟩ := Option.ne_none_iff_exists'.1 hp
  obtain ⟨r2, hr2, _⟩ := h.2 pr.1 r hr
  exact ⟨by rw [hr2]; simp, fun n hnn => Installed_Ext _ _ _ _ h (hn n hnn)⟩

theorem updateRules_spec (env : Env) (rules : List (GoString × List StatsdNode))
    (st : UpdateState) (hinv : Inv st.routingMap) :
    Ext st.routingMap (updateRules env rules st).1.routingMap ∧
    ((updateRules env rules st).2 ≠ Exit.failed →
      Inv (updateRules env rules st).1.routingMap) ∧
    ((updateRules env rules st).2 = Exit.ok →
      Settled (updateRules env rules st).1.routingMap rules) := by
  induction rules generalizing st with
  | nil => exact ⟨Ext_refl _, fun _ => hinv, fun _ pr hpr => by simp at hpr⟩
  | cons pr rest ih =>
    obtain ⟨rule, nodes⟩ := pr
    obtain ⟨hext1, hinv1, hnf1, hpres1⟩ := ensureRule_spec env rule st hinv
    cases h1 : ensureRule env rule st with
    | mk st1 e1 =>
      rw [h1] at hext1 hinv1 hnf1 hpres1
      cases e1 with
      | failed => exact absurd rfl hnf1
      | crashed =>
        simp only [updateRules, h1]
        exact ⟨hext1, fun _ => hinv1, fun h => by simp at h⟩
      | ok =>
        have hrule1 := hpres1 rfl
        obtain ⟨hext2, hinv2, hinst2⟩ := updateNodes_spec env rule nodes st1 hinv1 hrule1
        cases h2 : updateNodes env rule nodes st1 with
        | mk st2 e2 =>
          rw [h2] at hext2 hinv2 hinst2
          cases e2 with
          | failed =>
            simp only [updateRules, h1, h2]
            exact ⟨Ext_trans _ _ _ hext1 hext2, fun h => absurd rfl h, fun h => by simp at h⟩
          | crashed =>
            simp only [updateRules, h1, h2]
            exact ⟨Ext_trans _ _ _ hext1 hext2, fun _ => hinv2 (by simp), fun h => by simp at h⟩
          | ok =>
            have hinv3 : Inv st2.routingMap := hinv2 (by simp)
            obtain ⟨hext3, hinv4, hset⟩ := ih st2 hinv3
            simp only [updateRules, h1, h2]
            refine ⟨Ext_trans _ _ _ (Ext_trans _ _ _ hext1 hext2) hext3, hinv4, fun hok => ?_⟩
            intro pr hpr
            rcases List.mem_cons.1 hpr with e | e
            · rw [e]
              have hhead : Settled st2.routingMap [(rule, nodes)] := by
                intro q hq
                have eq : q = (rule, nodes) := by simpa using hq
                rw [eq]
                obtain ⟨r, hr⟩ := Option.ne_none_iff_exists'.1 hrule1
                obtain ⟨r2, hr2, _⟩ := hext2.2 rule r hr
                exact ⟨by rw [hr2]; simp, hinst2 rfl⟩
              exact Settled_Ext _ _ _ hext3 hhead (rule, nodes) (by simp)
            · exact hset hok pr e

/-! ## A settled configuration is applied without any change -/

theorem updateNode_noop (env : Env) (rule : GoString) (node : StatsdNode) (st : UpdateState)
    (h : Installed st.routingMap rule node) : updateNode env rule node st = (st, Exit.ok) := by
  obtain ⟨r, b, hr, hb, hs⟩ := h
  simp only [updateNode, hb, hr, hs]

theorem updateNodes_noop (env : Env) (rule : GoString) (nodes : List StatsdNode)
    (st : UpdateState) (h : ∀ n ∈ nodes, Installed st.routingMap rule n) :
    updateNodes env rule nodes st = (st, Exit.ok) := by
  induction nodes with
  | nil => rfl
  | cons node rest ih =>
    simp only [updateNodes, updateNode_noop env rule node st (h node (by simp))]
    exact ih (fun n hn => h n (List.mem_cons_of_mem _ hn))

theorem ensureRule_noop (env : Env) (rule : GoString) (st : UpdateState)
    (h : mapGet rule st.routingMap.Map ≠ none) : ensureRule env rule st = (st, Exit.ok) := by
  obtain ⟨r, hr⟩ := Option.ne_none_iff_exists'.1 h
  simp only [ensureRule, hr]

theorem updateRules_noop (env : Env) (rules : List (GoString × List StatsdNode))
    (st : UpdateState) (h : Settled st.routingMap rules) :
    updateRules env rules st = (st, Exit.ok) := by
  induction rules with
  | nil => rfl
  | cons pr rest ih =>
    obtain ⟨rule, nodes⟩ := pr
    obtain ⟨hp, hn⟩ := h (rule, nodes) (by simp)
    simp only [updateRules, ensureRule_noop env rule st hp, updateNodes_noop env rule nodes st hn]
    exact ih (fun q hq => h q (List.mem_cons_of_mem _ hq))

theorem Inv_empty (checkInterval : Int) : Inv (NewRoutingMap checkInterval) :=
  ⟨fun kv hkv => by simp [NewRoutingMap] at hkv, fun pr hpr => by simp [NewRoutingMap] at hpr⟩

theorem ReachedWithoutFailure_Inv (m : RoutingMap) (h : ReachedWithoutFailure m) : Inv m := by
  induction h with
  | empty c => exact Inv_empty c
  | update env m config _ hne ih =>
    exact (updateRules_spec env config.Rules { routingMap := m, constructions := 0 } ih).2.1 hne

/-- The routing maps built by updates without a failed construction meet what the
dispatch theorems ask of a table: no rule lists a nil pointer, and no rule lists a
backend twice. -/
theorem ReachedWithoutFailure_rules_wellformed (m : RoutingMap) (h : ReachedWithoutFailure m) :
    ∀ pr ∈ m.Map, none ∉ pr.2.Backends ∧ pr.2.Backends.Nodup := by
  have hinv := ReachedWithoutFailure_Inv m h
  have hnodup : ∀ l : List (Option StatsDBackend), none ∉ l → (identities l).Nodup →
      l.Nodup := by
    intro l
    induction l with
    | nil => intro _ _; exact List.nodup_nil
    | cons x l ih =>
      intro hn hd
      cases x with
      | none => simp at hn
      | some b =>
        have hl : none ∉ l := fun e => hn (List.mem_cons_of_mem _ e)
        have hd2 : (b.node :: identities l).Nodup := by
          simpa [identities, List.filterMap_cons] using hd
        rw [List.nodup_cons] at hd2 ⊢
        refine ⟨fun hmem => hd2.1 ((mem_identities _ _).2 ⟨b, hmem, rfl⟩), ih hl hd2.2⟩
  intro pr hpr
  have hno : none ∉ pr.2.Backends := by
    intro hmem
    obtain ⟨b, hb, _⟩ := (hinv.2 pr hpr).1 none hmem
    exact absurd hb (by simp)
  exact ⟨hno, hnodup _ hno (hinv.2 pr hpr).2⟩

/-! ## The registry key determines the identity -/

theorem left_split (c : UInt8) (x y a b : GoString) (hx : c ∉ x) (hy : c ∉ y)
    (h : x ++ c :: a = y ++ c :: b) : x = y ∧ a = b := by
  induction x generalizing y with
  | nil =>
    cases y with
    | nil => simpa using h
    | cons d y =>
      have hd : c = d := by simpa using (List.cons.inj h).1
      exact absurd (by simp [hd]) hy
  | cons e x ih =>
    cases y with
    | nil =>
      have he : e = c := by simpa using (List.cons.inj h).1
      exact absurd (by simp [he]) hx
    | cons d y =>
      have h1 := List.cons.inj h
      have hx2 : c ∉ x := fun m => hx (List.mem_cons_of_mem _ m)
      have hy2 : c ∉ y := fun m => hy (List.mem_cons_of_mem _ m)
      obtain ⟨e1, e2⟩ := ih y hx2 hy2 h1.2
      exact ⟨by rw [h1.1, e1], e2⟩

theorem right_split (c : UInt8) (x y a b : GoString) (hx : c ∉ x) (hy : c ∉ y)
    (h : a ++ c :: x = b ++ c :: y) : a = b ∧ x = y := by
  have h2 : x.reverse ++ c :: a.reverse = y.reverse ++ c :: b.reverse := by
    have := congrArg List.reverse h
    simpa using this
  obtain ⟨e1, e2⟩ := left_split c x.reverse y.reverse a.reverse b.reverse
    (by simpa using hx) (by simpa using hy) h2
  exact ⟨List.reverse_injective e2, List.reverse_injective e1⟩

theorem decimalDigits_lt (fuel n : Nat) : ∀ d ∈ decimalDigits fuel n, d < 10 := by
  induction fuel generalizing n with
  | zero => intro d hd; simp [decimalDigits] at hd
  | succ f ih =>
    intro d hd
    by_cases hn : n < 10
    · simp only [decimalDigits, hn, if_true, List.mem_singleton] at hd
      omega
    · simp only [decimalDigits, hn, if_false, List.mem_cons] at hd
      rcases hd with hd | hd
      · omega
      · exact ih _ d hd

theorem decimalDigits_value (fuel n : Nat) (h : n < fuel) :
    Nat.ofDigits 10 (decimalDigits fuel n) = n := by
  induction fuel generalizing n with
  | zero => omega
  | succ f ih =>
    by_cases hn : n < 10
    · simp [decimalDigits, hn, Nat.ofDigits_cons]
    · simp only [decimalDigits, hn, if_false, Nat.ofDigits_cons]
      rw [ih (n / 10) (by omega)]
      omega

theorem digitByte_toNat (d : Nat) (h : d < 10) : (UInt8.ofNat (48 + d)).toNat = 48 + d := by
  show (48 + d) % 256 = 48 + d
  omega

theorem formatUint_no_colon (n : Nat) : colon ∉ formatUint n := by
  intro h
  simp only [formatUint, List.mem_map, List.mem_reverse] at h
  obtain ⟨d, hd, he⟩ := h
  have hlt := decimalDigits_lt _ _ d hd
  have := congrArg UInt8.toNat he
  rw [digitByte_toNat d hlt] at this
  have h58 : colon.toNat = 58 := by decide
  omega

theorem formatUint_injective (a b : Nat) (h : formatUint a = formatUint b) : a = b := by
  have hmap : ∀ (l1 l2 : List Nat), (∀ d ∈ l1, d < 10) → (∀ d ∈ l2, d < 10) →
      l1.map (fun d => UInt8.ofNat (48 + d)) = l2.map (fun d => UInt8.ofNat (48 + d)) →
      l1 = l2 := by
    intro l1
    induction l1 with
    | nil =>
      intro l2 _ _ e
      cases l2 with
      | nil => rfl
      | cons _ _ => simp at e
    | cons d l1 ih =>
      intro l2 h1 h2 e
      cases l2 with
      | nil => simp at e
      | cons d2 l2 =>
        simp only [List.map_cons] at e
        have e1 := List.cons.inj e
        have hd := congrArg UInt8.toNat e1.1
        rw [digitByte_toNat d (h1 d (by simp)), digitByte_toNat d2 (h2 d2 (by simp))] at hd
        have : d = d2 := by omega
        rw [this, ih l2 (fun x hx => h1 x (List.mem_cons_of_mem _ hx))
          (fun x hx => h2 x (List.mem_cons_of_mem _ hx)) e1.2]
  have hrev := hmap (decimalDigits (a + 1) a).reverse (decimalDigits (b + 1) b).reverse
    (fun d hd => decimalDigits_lt _ _ d (List.mem_reverse.1 hd))
    (fun d hd => decimalDigits_lt _ _ d (List.mem_reverse.1 hd)) h
  have hdig := List.reverse_injective hrev
  have ha := decimalDigits_value (a + 1) a (by omega)
  have hb := decimalDigits_value (b + 1) b (by omega)
  rw [hdig] at ha
  omega

theorem backendKey_injective (n1 n2 : StatsdNode) (h : backendKey n1 = backendKey n2) :
    n1 = n2 := by
  simp only [backendKey] at h
  have h2 : (n1.Host ++ colon :: formatUint n1.Port) ++ colon :: formatUint n1.ManagementPort
      = (n2.Host ++ colon :: formatUint n2.Port) ++ colon :: formatUint n2.ManagementPort := by
    simpa using h
  obtain ⟨e1, e2⟩ := right_split colon _ _ _ _ (formatUint_no_colon _) (formatUint_no_colon _) h2
  obtain ⟨e3, e4⟩ := right_split colon _ _ _ _ (formatUint_no_colon _) (formatUint_no_colon _) e1
  have hp := formatUint_injective _ _ e4
  have hm := formatUint_injective _ _ e2
  cases n1
  cases n2
  simp_all

/-! ## Updates: the claims -/

/-- Updates without an earlier construction failure install the desired
configuration. After an `UpdateRoutingMap(desired)` that returned a nil error, on a
routing map reached from the empty one by earlier updates (none of which returned the error
of a backend construction), every pattern of `desired` is a key of the rule map, for
every node listed under a pattern the backend list of that rule contains a backend
with the node's identity triple, and the registry holds, under the node's key, a
constructed backend with that identity. -/
theorem update_installs_desired (env : Env) (routingMap : RoutingMap) (desired : RouterConfig)
    (hreach : ReachedWithoutFailure routingMap)
    (hok : (UpdateRoutingMap env routingMap desired).2 = Exit.ok) :
    ∀ pr ∈ desired.Rules,
      (∃ r, mapGet pr.1 (UpdateRoutingMap env routingMap desired).1.routingMap.Map = some r ∧
        ∀ n ∈ pr.2, n ∈ identities r.Backends) ∧
      (∀ n ∈ pr.2, ∃ b,
        mapGet (backendKey n) (UpdateRoutingMap env routingMap desired).1.routingMap.backendList
          = some (some b) ∧ b.node = n) := by
  have hinv := ReachedWithoutFailure_Inv routingMap hreach
  obtain ⟨_, hinv2, hset⟩ :=
    updateRules_spec env desired.Rules { routingMap := routingMap, constructions := 0 } hinv
  have hinv3 := hinv2 (by rw [show updateRules env desired.Rules _ = UpdateRoutingMap env routingMap desired from rfl, hok]; simp)
  have hset2 := hset hok
  intro pr hpr
  obtain ⟨hp, hn⟩ := hset2 pr hpr
  obtain ⟨r, hr⟩ := Option.ne_none_iff_exists'.1 hp
  have key : ∀ n ∈ pr.2, ∃ b,
      mapGet (backendKey n) (UpdateRoutingMap env routingMap desired).1.routingMap.backendList
        = some (some b) ∧ b.node = n ∧ n ∈ identities r.Backends := by
    intro n hnn
    obtain ⟨r2, b, hr2, hb, hs⟩ := hn n hnn
    have er : r2 = r := Option.some.inj (hr2.symm.trans hr)
    obtain ⟨c, hc1, hc2⟩ := hinv3.1 _ (mapGet_mem _ _ _ hb)
    have ec : b = c := Option.some.inj hc1
    have hc3 : backendKey n = backendKey c.node := hc2
    have hbn : b.node = n := by rw [ec]; exact (backendKey_injective _ _ hc3).symm
    refine ⟨b, hb, hbn, ?_⟩
    rw [← hbn, ← er]
    exact backendInSlice_true b _ hs
  refine ⟨⟨r, hr, fun n hnn => ?_⟩, fun n hnn => ?_⟩
  · obtain ⟨_, _, _, h3⟩ := key n hnn
    exact h3
  · obtain ⟨b, h1, h2, _⟩ := key n hnn
    exact ⟨b, h1, h2⟩

/-- Scenario S5 as an instance: the desired configuration applied to the table that
holds `a -> [B1]`. -/
theorem update_installs_desired_witness :
    ReachedWithoutFailure scenarioTable ∧
    (UpdateRoutingMap scenarioEnv scenarioTable scenarioDesired).2 = Exit.ok ∧
    ∀ pr ∈ scenarioDesired.Rules,
      (∃ r, mapGet pr.1 (UpdateRoutingMap scenarioEnv scenarioTable scenarioDesired).1.routingMap.Map
          = some r ∧
        ∀ n ∈ pr.2, n ∈ identities r.Backends) ∧
      (∀ n ∈ pr.2, ∃ b,
        mapGet (backendKey n)
            (UpdateRoutingMap scenarioEnv scenarioTable scenarioDesired).1.routingMap.backendList
          = some (some b) ∧ b.node = n) :=
  ⟨ReachedWithoutFailure.update scenarioEnv (NewRoutingMap 10) scenarioInitial (ReachedWithoutFailure.empty 10)
      (by decide),
    by decide,
    update_installs_desired scenarioEnv scenarioTable scenarioDesired
      (ReachedWithoutFailure.update scenarioEnv (NewRoutingMap 10) scenarioInitial (ReachedWithoutFailure.empty 10)
        (by decide))
      (by decide)⟩

/-- Scenario S5, evaluated: the rules are `a -> [B1, B2]` and `b -> [B2]`, with no
second B2 under `a`, and the registry holds B1 and B2. -/
theorem scenario_S5_merge :
    (UpdateRoutingMap scenarioEnv scenarioTable scenarioDesired).1.routingMap.Map.map
        (fun pr => (pr.1, identities pr.2.Backends)) =
      [(bytesOf "a", [scenarioN1, scenarioN2]), (bytesOf "b", [scenarioN2])] ∧
    (UpdateRoutingMap scenarioEnv scenarioTable scenarioDesired).1.routingMap.backendList.map
        (fun kv => kv.1) = [backendKey scenarioN1, backendKey scenarioN2] ∧
    (UpdateRoutingMap scenarioEnv scenarioTable scenarioDesired).1.constructions = 1 := by
  decide

theorem Settled_of_subset (m : RoutingMap) (rules rules2 : List (GoString × List StatsdNode))
    (hsub : ∀ pr ∈ rules2, pr ∈ rules) (h : Settled m rules) : Settled m rules2 :=
  fun pr hpr => h pr (hsub pr hpr)

/-- Without an earlier construction failure, applying the same desired configuration
twice is a no-op the second time: on a routing map reached from the empty one by earlier updates (none of which
returned the error of a backend construction), when `UpdateRoutingMap(desired)`
returned a nil error, a second `UpdateRoutingMap` of the same configuration (its
rules visited in any order, `again`, and in any environment) returns a nil error,
calls `NewStatsDBackend` zero times and leaves the routing map (the patterns, every
rule's backend list, the registry) exactly as the first call left it; and no rule's
backend list holds a nil pointer or two backends with the same identity triple. -/
theorem update_twice_is_noop (env env2 : Env) (routingMap : RoutingMap)
    (desired again : RouterConfig) (hreach : ReachedWithoutFailure routingMap)
    (hok : (UpdateRoutingMap env routingMap desired).2 = Exit.ok)
    (hagain : again.Rules.Perm desired.Rules) :
    UpdateRoutingMap env2 (UpdateRoutingMap env routingMap desired).1.routingMap again =
      ({ routingMap := (UpdateRoutingMap env routingMap desired).1.routingMap,
         constructions := 0 }, Exit.ok) ∧
    ∀ pr ∈ (UpdateRoutingMap env routingMap desired).1.routingMap.Map,
      none ∉ pr.2.Backends ∧ (identities pr.2.Backends).Nodup := by
  have hinv := ReachedWithoutFailure_Inv routingMap hreach
  obtain ⟨_, hinv2, hset⟩ :=
    updateRules_spec env desired.Rules { routingMap := routingMap, constructions := 0 } hinv
  have hok2 : (updateRules env desired.Rules { routingMap := routingMap, constructions := 0 }).2
      = Exit.ok := hok
  have hinv3 := hinv2 (by rw [hok2]; simp)
  refine ⟨?_, fun pr hpr => ⟨fun hmem => ?_, (hinv3.2 pr hpr).2⟩⟩
  · exact updateRules_noop env2 again.Rules _
      (Settled_of_subset _ _ _ (fun pr hpr => hagain.subset hpr) (hset hok2))
  · obtain ⟨b, hb, _⟩ := (hinv3.2 pr hpr).1 none hmem
    exact absurd hb (by simp)

/-- Scenario S5 as an instance; its desired configuration lists B2 twice under `a`;
the second application visits the rules in the opposite order. -/
theorem update_twice_is_noop_witness :
    ReachedWithoutFailure scenarioTable ∧
    (UpdateRoutingMap scenarioEnv scenarioTable scenarioDesired).2 = Exit.ok ∧
    scenarioDesiredAgain.Rules.Perm scenarioDesired.Rules ∧
    UpdateRoutingMap scenarioEnv
        (UpdateRoutingMap scenarioEnv scenarioTable scenarioDesired).1.routingMap
        scenarioDesiredAgain =
      ({ routingMap := (UpdateRoutingMap scenarioEnv scenarioTable scenarioDesired).1.routingMap,
         constructions := 0 }, Exit.ok) ∧
    ∀ pr ∈ (UpdateRoutingMap scenarioEnv scenarioTable scenarioDesired).1.routingMap.Map,
      none ∉ pr.2.Backends ∧ (identities pr.2.Backends).Nodup :=
  ⟨ReachedWithoutFailure.update scenarioEnv (NewRoutingMap 10) scenarioInitial (ReachedWithoutFailure.empty 10)
      (by decide),
    by decide,
    List.Perm.swap _ _ _,
    update_twice_is_noop scenarioEnv scenarioEnv scenarioTable scenarioDesired
      scenarioDesiredAgain
      (ReachedWithoutFailure.update scenarioEnv (NewRoutingMap 10) scenarioInitial (ReachedWithoutFailure.empty 10)
        (by decide))
      (by decide) (List.Perm.swap _ _ _)⟩

/-- C10. The code at the failing inputs: a pattern that does not compile makes
`UpdateRoutingMap` end in the runtime failure of `regexp.MustCompile`, not in a
returned error; and when a valid pattern is visited before it, the rule and the
backend of that pattern stay in the routing map. -/
theorem bad_pattern_crashes_update :
    UpdateRoutingMap scenarioEnv (NewRoutingMap 10) scenarioBadPattern =
      ({ routingMap := NewRoutingMap 10, constructions := 0 }, Exit.crashed) ∧
    (UpdateRoutingMap scenarioEnv (NewRoutingMap 10) scenarioMixedPatterns).2 = Exit.crashed ∧
    (UpdateRoutingMap scenarioEnv (NewRoutingMap 10) scenarioMixedPatterns).1.routingMap.Map.map
        (fun pr => (pr.1, identities pr.2.Backends)) = [(bytesOf "a", [scenarioN1])] ∧
    (UpdateRoutingMap scenarioEnv (NewRoutingMap 10) scenarioMixedPatterns).1.routingMap.backendList.map
        (fun kv => kv.1) = [backendKey scenarioN1] := by
  decide

/-! ## The health probe -/

theorem OpenManagementConnection_opens (net : ProbeNet) (st : ProbeState) :
    (OpenManagementConnection net st).1.opens = st.opens + 1 := by
  simp only [OpenManagementConnection]
  split <;> rfl

/-- The fuel of `CheckAliveStatus` never runs out: the loop returns whenever
`retryCount` plus the fuel is at least three. -/
theorem checkAliveLoop_total (net : ProbeNet) (fuel retryCount : Nat) (st : ProbeState)
    (h : 3 ≤ fuel + retryCount) (hf : 1 ≤ fuel) :
    (checkAliveLoop net fuel retryCount st).isSome = true := by
  induction fuel generalizing retryCount st with
  | zero => omega
  | succ f ih =>
    simp only [checkAliveLoop]
    by_cases hr : retryCount > 1
    · simp [hr]
    · have ih2 : ∀ st2, (checkAliveLoop net f (retryCount + 1) st2).isSome = true :=
        fun st2 => ih (retryCount + 1) st2 (by omega) (by omega)
      simp only [hr, if_false]
      split
      · exact ih2 _
      · split
        · split
          · rfl
          · exact ih2 _
        · split
          · split
            · rfl
            · exact ih2 _
          · rfl

theorem CheckAliveStatus_total (net : ProbeNet) (st : ProbeState) :
    (CheckAliveStatus net st).isSome = true :=
  checkAliveLoop_total net 3 0 st (by omega) (by omega)

/-- From the label `Retry` on, the calls of `OpenManagementConnection` number at most
two for each value of `retryCount` that is still allowed. -/
theorem checkAliveLoop_opens_bound (net : ProbeNet) (fuel retryCount : Nat) (st : ProbeState)
    (r : ProbeState × Bool) (h : checkAliveLoop net fuel retryCount st = some r) :
    r.1.opens ≤ st.opens + 2 * (2 - retryCount) := by
  induction fuel generalizing retryCount st with
  | zero => simp [checkAliveLoop] at h
  | succ f ih =>
    simp only [checkAliveLoop] at h
    by_cases hr : retryCount > 1
    · simp only [hr, if_true, Option.some.injEq] at h
      rw [← h]
      dsimp only
      omega
    · simp only [hr, if_false] at h
      have hopen := OpenManagementConnection_opens net
      cases hc : st.ManagementConn with
      | none =>
        simp only [hc] at h
        split at h
        · have := ih _ _ h
          rw [hopen] at this
          try dsimp only at *
          try simp only [OpenManagementConnection_opens] at *
          omega
        · split at h
          · split at h
            · simp only [Option.some.injEq] at h
              rw [← h, hopen]
              simp only [hopen]
              try dsimp only at *
              try simp only [OpenManagementConnection_opens] at *
              omega
            · have := ih _ _ h
              rw [hopen] at this
              simp only [hopen] at this
              try dsimp only at *
              try simp only [OpenManagementConnection_opens] at *
              omega
          · split at h
            · split at h
              · simp only [Option.some.injEq] at h
                rw [← h, hopen]
                simp only [hopen]
                try dsimp only at *
                try simp only [OpenManagementConnection_opens] at *
                omega
              · have := ih _ _ h
                rw [hopen] at this
                simp only [hopen] at this
                try dsimp only at *
                try simp only [OpenManagementConnection_opens] at *
                omega
            · simp only [Option.some.injEq] at h
              rw [← h]
              simp only [hopen]
              try dsimp only at *
              try simp only [OpenManagementConnection_opens] at *
              omega
      | some c =>
        simp only [hc, Bool.false_eq_true, if_false] at h
        split at h
        · split at h
          · simp only [Option.some.injEq] at h
            rw [← h, hopen]
            try dsimp only at *
            try simp only [OpenManagementConnection_opens] at *
            omega
          · have := ih _ _ h
            rw [hopen] at this
            simp only at this
            try dsimp only at *
            try simp only [OpenManagementConnection_opens] at *
            omega
        · split at h
          · split at h
            · simp only [Option.some.injEq] at h
              rw [← h, hopen]
              try dsimp only at *
              try simp only [OpenManagementConnection_opens] at *
              omega
            · have := ih _ _ h
              rw [hopen] at this
              simp only at this
              try dsimp only at *
              try simp only [OpenManagementConnection_opens] at *
              omega
          · simp only [Option.some.injEq] at h
            rw [← h]
            try dsimp only at *
            try simp only [OpenManagementConnection_opens] at *
            omega

/-- A single `CheckAliveStatus` makes at most four calls of
`OpenManagementConnection`, whatever the handle and the outcomes. -/
theorem CheckAliveStatus_opens_bound (net : ProbeNet) (st : ProbeState)
    (r : ProbeState × Bool) (h : CheckAliveStatus net st = some r) :
    r.1.opens ≤ st.opens + 4 := by
  have := checkAliveLoop_opens_bound net 3 0 st r h
  omega

/-- With a nil handle, a connection attempt that does not connect leaves the handle
nil and counts as a failed attempt. -/
theorem OpenManagementConnection_not_connected (net : ProbeNet) (st : ProbeState)
    (hnil : st.ManagementConn = none)
    (h : ∀ c, net.dial st.opens ≠ DialOutcome.connected c) :
    (OpenManagementConnection net st).1 = { st with opens := st.opens + 1 } ∧
    ((OpenManagementConnection net st).2 ||
      (OpenManagementConnection net st).1.ManagementConn.isNone) = true := by
  cases st with
  | mk conn opens writes reads =>
    simp only at hnil h
    subst hnil
    simp only [OpenManagementConnection]
    cases hd : net.dial opens with
    | connected c => exact absurd hd (h c)
    | resolveError => simp
    | dialError => simp
    | refused => simp

/-- With a nil handle and two consecutive connection attempts that fail,
`CheckAliveStatus` returns false after exactly these two attempts, without a
`Write` or a `Read`, and the handle is still nil. -/
theorem CheckAliveStatus_two_failed_opens (net : ProbeNet) (st : ProbeState)
    (hnil : st.ManagementConn = none)
    (h1 : ∀ c, net.dial st.opens ≠ DialOutcome.connected c)
    (h2 : ∀ c, net.dial (st.opens + 1) ≠ DialOutcome.connected c) :
    CheckAliveStatus net st = some ({ st with opens := st.opens + 2 }, false) := by
  obtain ⟨e1, f1⟩ := OpenManagementConnection_not_connected net st hnil h1
  obtain ⟨e2, f2⟩ := OpenManagementConnection_not_connected net
    { st with opens := st.opens + 1 } hnil h2
  have hnil2 : ({ st with opens := st.opens + 1 } : ProbeState).ManagementConn = none := hnil
  simp only [CheckAliveStatus, checkAliveLoop, hnil]
  simp only [e1, e1 ▸ f1, hnil2, e2, e2 ▸ f2]
  simp [hnil]

/-! ## The remaining claims -/

/-- C11. The code at the failing input: an update that names the unreachable node
`bad:8125:8126` under the pattern `a` returns the construction error and leaves a
registry entry that holds nil; a second update naming the node, made when the host
can be reached, finds the key, does not call `NewStatsDBackend`, appends the nil
pointer to the rule and returns a nil error; a third one fails at run time in
`backendInSlice`, and so does `metricHandler` on a record that the rule matches. -/
theorem failed_construction_leaves_nil_entry :
    UpdateRoutingMap scenarioEnv (NewRoutingMap 10) scenarioBadConfig =
      ({ routingMap :=
           { Map := [(bytesOf "a", { Regexp := { expr := bytesOf "a" }, Backends := [] })],
             backendList := [(backendKey scenarioBadNode, none)],
             checkInterval := 10 },
         constructions := 1 }, Exit.failed) ∧
    UpdateRoutingMap scenarioEnvHealed scenarioAfterFailure scenarioBadConfig =
      ({ routingMap :=
           { Map := [(bytesOf "a", { Regexp := { expr := bytesOf "a" }, Backends := [none] })],
             backendList := [(backendKey scenarioBadNode, none)],
             checkInterval := 10 },
         constructions := 0 }, Exit.ok) ∧
    (UpdateRoutingMap scenarioEnvHealed scenarioAfterRetry scenarioBadConfig).2 = Exit.crashed ∧
    metricHandler scenarioEnv (fun _ => true) scenarioAfterRetry scenarioMaster scenarioMetricA
      = ([], true) := by
  decide

/-- C12. The code at the failing inputs: with a nil handle, connection attempts that
all connect and writes that all fail, one `CheckAliveStatus` calls
`OpenManagementConnection` three times; when the second attempt is refused instead,
it calls it four times; with an open handle and a refused first attempt, three
times.  Each time it returns false. -/
theorem CheckAliveStatus_opens_more_than_twice :
    CheckAliveStatus probeWriteFails probeNull =
      some ({ ManagementConn := some 2, opens := 3, writes := 2, reads := 0 }, false) ∧
    CheckAliveStatus probeFlaky probeNull =
      some ({ ManagementConn := some 3, opens := 4, writes := 2, reads := 0 }, false) ∧
    CheckAliveStatus probeFlakyFirst probeOpen =
      some ({ ManagementConn := some 2, opens := 3, writes := 2, reads := 0 }, false) := by
  decide

/-- The probe on a management port that refuses every connection: two attempts,
false, handle nil. -/
theorem scenario_probe_down :
    CheckAliveStatus probeDown probeNull =
      some ({ ManagementConn := none, opens := 2, writes := 0, reads := 0 }, false) := by
  decide

/-- C13. The registry key `host:port:mgmt_port` built by `UpdateRoutingMap` is the
same for two nodes if and only if the nodes have equal (host, port, mgmt_port)
triples, whatever the host string (a `:` in it included) and the ports. -/
theorem backendKey_eq_iff (n1 n2 : StatsdNode) : backendKey n1 = backendKey n2 ↔ n1 = n2 := by
  constructor
  · exact backendKey_injective n1 n2
  · intro h
    rw [h]

/-- In a routing map built by updates without a failed construction the backend
found under the key of a node has the identity of that node: two distinct triples
never share a backend. -/
theorem ReachedWithoutFailure_registry_identity (m : RoutingMap) (h : ReachedWithoutFailure m) (n : StatsdNode)
    (b : StatsDBackend) (hb : mapGet (backendKey n) m.backendList = some (some b)) :
    b.node = n := by
  obtain ⟨c, hc1, hc2⟩ := (ReachedWithoutFailure_Inv m h).1 _ (mapGet_mem _ _ _ hb)
  have ec : b = c := Option.some.inj hc1
  have hk : backendKey n = backendKey c.node := hc2
  rw [ec]
  exact (backendKey_injective _ _ hk).symm

/-- Keys of hosts that contain `:`, evaluated: the IPv6 host `::1`, and two nodes
whose host and port digits could be confused. -/
theorem scenario_colon_hosts :
    backendKey { Host := bytesOf "::1", Port := 8125, ManagementPort := 8126 }
      = bytesOf "::1:8125:8126" ∧
    backendKey { Host := bytesOf "a:1", Port := 2, ManagementPort := 3 } = bytesOf "a:1:2:3" ∧
    backendKey { Host := bytesOf "a", Port := 1, ManagementPort := 23 } = bytesOf "a:1:23" := by
  decide

/-! ## Routing maps that followed a failed construction -/

theorem ReachedWithoutFailure_Reachable (m : RoutingMap) (h : ReachedWithoutFailure m) :
    Reachable m := by
  induction h with
  | empty c => exact Reachable.empty c
  | update env m config _ _ ih => exact Reachable.update env m config ih

/-- The routing map left by the update that failed on the unreachable node is one
the program holds. -/
theorem scenarioAfterFailure_reachable : Reachable scenarioAfterFailure :=
  Reachable.update scenarioEnv (NewRoutingMap 10) scenarioBadConfig (Reachable.empty 10)

/-- C1. The code at the failing input: after an update that failed on the node
`bad:8125:8126`, the update `a -> [bad, b2]` returns a nil error and leaves the rule
`a -> [nil, B2]`; on this reachable routing map, with every backend alive, the
record `a:1|c` is matched by the one rule that lists B2, and `metricHandler` fails
at run time on the nil pointer before any send: B2 gets no copy. -/
theorem nil_backend_blocks_rule_copies :
    Reachable scenarioNilThenB2 ∧
    (UpdateRoutingMap scenarioEnv scenarioAfterFailure scenarioBadThenB2).2 = Exit.ok ∧
    scenarioNilThenB2.Map =
      [(bytesOf "a", { Regexp := { expr := bytesOf "a" },
                       Backends := [none, some scenarioBuiltB2] })] ∧
    (matchingRules scenarioEnv scenarioMetricA scenarioBuiltB2 scenarioNilThenB2.Map).length
      = 1 ∧
    metricHandler scenarioEnv (fun _ => true) scenarioNilThenB2 scenarioMaster scenarioMetricA
      = ([], true) ∧
    sendsTo scenarioBuiltB2
      (metricHandler scenarioEnv (fun _ => true) scenarioNilThenB2 scenarioMaster
        scenarioMetricA).1 = [] :=
  ⟨Reachable.update scenarioEnv scenarioAfterFailure scenarioBadThenB2
      scenarioAfterFailure_reachable,
    by decide, by decide, by decide, by decide, by decide⟩

/-- C2. The code at the failing input: on the reachable routing map `a -> [nil]`
(a failed construction, then the same update again), with a live master, the record
`a:1|c` makes `metricHandler` fail at run time in the loop over the rule's backends,
before the send to the master: the live master gets no copy. -/
theorem nil_backend_blocks_master_copy :
    Reachable scenarioAfterRetry ∧
    scenarioAfterRetry.Map =
      [(bytesOf "a", { Regexp := { expr := bytesOf "a" }, Backends := [none] })] ∧
    (metricHandler scenarioEnv (fun _ => true) scenarioAfterRetry scenarioMaster
      scenarioMetricA).2 = true ∧
    sendsTo scenarioMaster
      (metricHandler scenarioEnv (fun _ => true) scenarioAfterRetry scenarioMaster
        scenarioMetricA).1 = [] :=
  ⟨Reachable.update scenarioEnvHealed scenarioAfterFailure scenarioBadConfig
      scenarioAfterFailure_reachable,
    by decide, by decide, by decide⟩

/-- C5. The code at the failing input: on the reachable routing map left by the
update that failed on the node `bad:8125:8126`, `UpdateRoutingMap` with
`a -> [bad]` returns a nil error, and yet the backend list of rule `a` is `[nil]`,
which contains no backend with the node's identity, and the registry entry of the
node holds nil. -/
theorem update_after_failure_installs_nil :
    Reachable scenarioAfterFailure ∧
    (UpdateRoutingMap scenarioEnvHealed scenarioAfterFailure scenarioBadConfig).2 = Exit.ok ∧
    mapGet (bytesOf "a")
        (UpdateRoutingMap scenarioEnvHealed scenarioAfterFailure scenarioBadConfig).1.routingMap.Map
      = some { Regexp := { expr := bytesOf "a" }, Backends := [none] } ∧
    scenarioBadNode ∉ identities [none] ∧
    mapGet (backendKey scenarioBadNode)
        (UpdateRoutingMap scenarioEnvHealed scenarioAfterFailure
          scenarioBadConfig).1.routingMap.backendList
      = some none :=
  ⟨scenarioAfterFailure_reachable, by decide, by decide, by decide, by decide⟩

/-- C6. The code at the failing input: on the reachable routing map left by the
update that failed on the node `bad:8125:8126`, a first `UpdateRoutingMap` with
`a -> [bad]` returns a nil error and changes the rule from `a -> []` to
`a -> [nil]`; the second application of the same configuration does not return: it
fails at run time in `backendInSlice`. -/
theorem update_twice_after_failure_crashes :
    Reachable scenarioAfterFailure ∧
    (UpdateRoutingMap scenarioEnvHealed scenarioAfterFailure scenarioBadConfig).2 = Exit.ok ∧
    scenarioAfterFailure.Map =
      [(bytesOf "a", { Regexp := { expr := bytesOf "a" }, Backends := [] })] ∧
    (UpdateRoutingMap scenarioEnvHealed scenarioAfterFailure scenarioBadConfig).1.routingMap.Map =
      [(bytesOf "a", { Regexp := { expr := bytesOf "a" }, Backends := [none] })] ∧
    UpdateRoutingMap scenarioEnvHealed
        (UpdateRoutingMap scenarioEnvHealed scenarioAfterFailure scenarioBadConfig).1.routingMap
        scenarioBadConfig =
      ({ routingMap :=
           (UpdateRoutingMap scenarioEnvHealed scenarioAfterFailure scenarioBadConfig).1.routingMap,
         constructions := 0 }, Exit.crashed) :=
  ⟨scenarioAfterFailure_reachable, by decide, by decide, by decide, by decide⟩

/-- C9. The code at the failing inputs: for the empty packet `packetHandler` puts one
record on the metric queue, and for the packet `a:1|c\n` two, the second one for the
empty segment after the final newline; this blank record reaches dispatch, where
`metricHandler` sends its nil raw to the live master, and to the backends of the
rule `.*`. -/
theorem empty_segment_record_is_dispatched :
    packetHandler [] = ([({} : StatsDMetric)], false) ∧
    packetHandler (bytesOf "a:1|c\n") =
      ([{ name := bytesOf "a", value := 1, raw := some (bytesOf "a:1|c") },
        ({} : StatsDMetric)], false) ∧
    metricHandler scenarioEnv (fun _ => true) (NewRoutingMap 10) scenarioMaster {} =
      ([{ backend := scenarioMaster, payload := none }], false) ∧
    metricHandler scenarioEnv (fun _ => true) scenarioS3 scenarioMaster {} =
      ([{ backend := scenarioB1, payload := none }, { backend := scenarioB2, payload := none },
        { backend := scenarioMaster, payload := none }], false) := by
  decide

end statsdrouter
